import Mathlib

/-!
# CodeLock: a keypad passcode lock with a persistent lockout

A shallow embedding of `src/main.c` (the normal build, `RESET_DEVICE` = 0).

* The EEPROM is the record `Eeprom` with the 16-bit word at `WAIT_TIMER` and the byte at
  `WRONG_TRIES`; the write functions reduce the written value to the width of the cell.
* The LCD, the output ports and the delays are external: every call to them is recorded as an
  `Effect`, and each function of the program returns the list of effects it performed, in order,
  next to the state it leaves.
* The RAM at `keystrokes` is a function from the byte offset to the byte stored there. Offsets
  below `sizeof(code)` are the array itself, larger offsets are the memory that follows it.
-/

namespace CodeLock

/-! ## Constants and tables -/

/-- The constant `#define MAX_WRONG_TRIES 3`. -/
def MAX_WRONG_TRIES : Nat := 3

/-- The constant `#define LOCKDOWN_WAIT 300`, in seconds. -/
def LOCKDOWN_WAIT : Nat := 300

/-- The keyboard layout `chars[row][col]`. -/
def chars : List (List Char) :=
  [['1', '2', '3', 'A'],
   ['4', '5', '6', 'B'],
   ['7', '8', '9', 'C'],
   ['*', '0', '#', 'D']]

/-- The secret `static char code[]`. -/
def code : List Char := ['1', '3', '3', '7']

/-- The value of `sizeof(code)`. -/
def sizeofCode : Nat := code.length

/-- The byte `code[k]`. Offsets past the end of `code` are only read by `memcmp` when
`cursor > sizeof(code)`, where the length test denies whatever they hold; they read as NUL here. -/
def codeAt (k : Nat) : Char := code.getD k (Char.ofNat 0)

/-! ## The persistent store -/

/-- The two EEPROM cells: the word at `WAIT_TIMER` and the byte at `WRONG_TRIES`. -/
structure Eeprom where
  /-- the remaining lockdown seconds, `uint16_t` at `WAIT_TIMER` -/
  waitTimer : Nat
  /-- the number of wrong attempts, `uint8_t` at `WRONG_TRIES` -/
  wrongTries : Nat
deriving DecidableEq, Repr

/-- The call `eeprom_read_word(WAIT_TIMER)`. -/
def eeprom_read_word (e : Eeprom) : Nat := e.waitTimer

/-- The call `eeprom_read_byte(WRONG_TRIES)`. -/
def eeprom_read_byte (e : Eeprom) : Nat := e.wrongTries

/-- The call `eeprom_write_word(WAIT_TIMER, v)`: the argument is converted to `uint16_t`. -/
def eeprom_write_word (e : Eeprom) (v : Nat) : Eeprom := { e with waitTimer := v % 65536 }

/-- The call `eeprom_write_byte(WRONG_TRIES, v)`: the argument is converted to `uint8_t`. -/
def eeprom_write_byte (e : Eeprom) (v : Nat) : Eeprom := { e with wrongTries := v % 256 }

/-! ## Effects on the outside world -/

/-- The I/O registers the program writes. -/
inductive Reg where
  | DDRD
  | PORTD
  | DDRC
  | PORTC
deriving DecidableEq, Repr

/-- The texts sent to the display. The two formatted ones carry the values that `snprintf`
prints into them. -/
inductive Msg where
  /-- the text "Enter passcode:" -/
  | enterPasscode
  /-- the text "Device locked" -/
  | deviceLocked
  /-- the text "Access denied!" -/
  | accessDenied
  /-- the text "Access granted!" -/
  | accessGranted
  /-- the text "Wait %02d m %02d s" with the two `uint8_t` arguments `min` and `sec` -/
  | wait (min sec : Nat)
  /-- the text "%d of %d tries" -/
  | tries (n max : Nat)
deriving DecidableEq, Repr

/-- One call into the display, the delay routine, the EEPROM or a port. -/
inductive Effect where
  /-- the call `avr_lcd_init()` -/
  | lcdInit
  /-- the call `avr_lcd_clear()` -/
  | lcdClear
  /-- the call `avr_lcd_puts(text)` -/
  | lcdPuts (m : Msg)
  /-- the call `avr_lcd_putc(c)` -/
  | lcdPutc (c : Char)
  /-- the call `avr_lcd_set_cursor_pos(AVR_LCD_LINE1 + off)` -/
  | lcdSetCursorLine1 (off : Nat)
  /-- the call `_delay_ms(ms)` -/
  | delayMs (ms : Nat)
  /-- the call `eeprom_write_word(WAIT_TIMER, v)` -/
  | eepromWriteWord (v : Nat)
  /-- the call `eeprom_write_byte(WRONG_TRIES, v)` -/
  | eepromWriteByte (v : Nat)
  /-- an assignment to an I/O register -/
  | out (r : Reg) (v : Nat)
deriving DecidableEq, Repr

/-! ## The Lockout Controller -/

/-- The calls made by the body of the `for` loop of `lock_device` for the value `i` of the loop
variable: `min` and `sec` are `uint8_t`, so the quotient and the remainder are reduced to a byte. -/
def tickEffects (i : Nat) : List Effect :=
  let min := (i / 60) % 256
  let sec := (i % 60) % 256
  [Effect.lcdSetCursorLine1 0, Effect.lcdPuts (Msg.wait min sec), Effect.delayMs 1000,
   Effect.eepromWriteWord (i % 65536)]

/-- The body of the `for` loop of `lock_device` for the value `i` of the loop variable:
format and show the time, wait a second, write `i` to the EEPROM. -/
def loopBody (i : Nat) (e : Eeprom) : Eeprom × List Effect :=
  (eeprom_write_word e i, tickEffects i)

/-- The loop `for (uint16_t i = ...; i > 0; i--)` of `lock_device`, entered with the loop
variable equal to the first argument. -/
def countdown : Nat → Eeprom → Eeprom × List Effect
  | 0, e => (e, [])
  | i + 1, e =>
    let r := loopBody (i + 1) e
    let r2 := countdown i r.1
    (r2.1, r.2 ++ r2.2)

/-- The function `lock_device()`: return at once when the word at `WAIT_TIMER` is 0, else show
"Device locked", run the countdown from the stored value and clear both cells. -/
def lock_device (e : Eeprom) : Eeprom × List Effect :=
  if eeprom_read_word e = 0 then (e, [])
  else
    let r := countdown (eeprom_read_word e) e
    (eeprom_write_byte (eeprom_write_word r.1 0) 0,
     [Effect.lcdClear, Effect.lcdPuts Msg.deviceLocked] ++ r.2 ++
       [Effect.eepromWriteWord 0, Effect.eepromWriteByte 0])

/-- The function `deny_access()`: store the incremented counter, show the denial, wait two
seconds, and when the stored counter has reached `MAX_WRONG_TRIES` store `LOCKDOWN_WAIT` and
call `lock_device()`. -/
def deny_access (e : Eeprom) : Eeprom × List Effect :=
  let e1 := eeprom_write_byte e (eeprom_read_byte e + 1)
  let t1 := [Effect.eepromWriteByte ((eeprom_read_byte e + 1) % 256), Effect.lcdClear,
    Effect.lcdPuts Msg.accessDenied, Effect.lcdSetCursorLine1 0,
    Effect.lcdPuts (Msg.tries (eeprom_read_byte e1) MAX_WRONG_TRIES), Effect.delayMs 2000]
  if eeprom_read_byte e1 ≥ MAX_WRONG_TRIES then
    let r := lock_device (eeprom_write_word e1 LOCKDOWN_WAIT)
    (r.1, t1 ++ [Effect.eepromWriteWord LOCKDOWN_WAIT] ++ r.2)
  else (e1, t1)

/-- The function `grant_access()`: show the grant, pulse bit 0 of port C for two seconds, clear
the counter. -/
def grant_access (e : Eeprom) : Eeprom × List Effect :=
  (eeprom_write_byte e 0,
   [Effect.lcdClear, Effect.lcdPuts Msg.accessGranted, Effect.out Reg.PORTC 1,
    Effect.delayMs 2000, Effect.out Reg.PORTC 0, Effect.eepromWriteByte 0])

/-! ## The Passcode State Machine -/

/-- The state of `main` between two polls of the keypad. -/
structure State where
  /-- the EEPROM -/
  eeprom : Eeprom
  /-- the variable `static uint8_t cursor` -/
  cursor : Nat
  /-- the RAM at `keystrokes`: offset `k` holds `keystrokes[k]`; the array is the offsets below
  `sizeof(code)` -/
  keystrokes : Nat → Char

/-- The candidate buffer: the `cursor` symbols typed since the last reset. -/
def State.buffer (s : State) : List Char := (List.range s.cursor).map s.keystrokes

/-- The function `wait_for_passcode()`. -/
def wait_for_passcode (s : State) : State × List Effect :=
  ({ s with cursor := 0 },
   [Effect.lcdClear, Effect.lcdPuts Msg.enterPasscode, Effect.lcdSetCursorLine1 0])

/-- The library function `memcmp(a, b, n)`: zero when the first `n` bytes agree, else the difference of the first
pair of bytes that differ. -/
def memcmp (a b : Nat → Char) : Nat → Int
  | 0 => 0
  | n + 1 =>
    if memcmp a b n ≠ 0 then memcmp a b n
    else ((a n).toNat : Int) - ((b n).toNat : Int)

/-- The test of the submit branch: `memcmp(code, keystrokes, cursor) || cursor != sizeof(code)`. -/
def submitMismatch (s : State) : Bool :=
  decide (memcmp codeAt s.keystrokes s.cursor ≠ 0) || decide (s.cursor ≠ sizeofCode)

/-- The body of `if (scan_kb_matrix(&row, &col))` once `c = chars[row][col]` is known. -/
def onKey (s : State) (c : Char) : State × List Effect :=
  if c = 'C' then wait_for_passcode s
  else if c = '#' then
    let r := if submitMismatch s then deny_access s.eeprom else grant_access s.eeprom
    let w := wait_for_passcode { s with eeprom := r.1 }
    (w.1, r.2 ++ w.2)
  else
    ({ s with keystrokes := Function.update s.keystrokes s.cursor c,
              cursor := (s.cursor + 1) % 256 },
     [Effect.lcdPutc '*'])

/-- The symbol `chars[row][col]` of a key found by `scan_kb_matrix`, whose loops keep `row` and
`col` below 4. -/
def keyAt (row col : Fin 4) : Char := ((chars.getD row.val []).getD col.val (Char.ofNat 0))

/-- One pass of `while (1)`: `scan_kb_matrix` reports no key, or the row and column of one. -/
def loopIter (s : State) (k : Option (Fin 4 × Fin 4)) : State × List Effect :=
  match k with
  | none => (s, [])
  | some rc => onKey s (keyAt rc.1 rc.2)

/-- The start of `main` up to the first poll: initialise the peripherals, run `lock_device`,
show the prompt. `ram` is what the uninitialised `keystrokes` happens to hold. -/
def boot (e : Eeprom) (ram : Nat → Char) : State × List Effect :=
  let r := lock_device e
  let w := wait_for_passcode { eeprom := r.1, cursor := 0, keystrokes := ram }
  (w.1,
   [Effect.lcdInit, Effect.out Reg.DDRD 0x0F, Effect.out Reg.PORTD 0xF0,
    Effect.out Reg.DDRC 0x01, Effect.out Reg.PORTC 0x00] ++ r.2 ++ w.2)

/-- The states in which the main loop calls `scan_kb_matrix`: the one `boot` leaves, from any
EEPROM and RAM contents, and the one every pass of the loop leaves. -/
inductive Polling : State → Prop where
  | boot (e : Eeprom) (ram : Nat → Char) : Polling (boot e ram).1
  | iter (s : State) (k : Option (Fin 4 × Fin 4)) : Polling s → Polling (loopIter s k).1

/-- Typing the symbols of `cs` one after the other. -/
def typeKeys (s : State) : List Char → State × List Effect
  | [] => (s, [])
  | c :: cs =>
    let r := onKey s c
    let r2 := typeKeys r.1 cs
    (r2.1, r.2 ++ r2.2)

/-- The call `deny_access()` made `n` times in a row. -/
def denials : Nat → Eeprom → Eeprom × List Effect
  | 0, e => (e, [])
  | n + 1, e =>
    let r := deny_access e
    let r2 := denials n r.1
    (r2.1, r.2 ++ r2.2)

/-! ## Observations on effect traces -/

/-- The relay pulse of `grant_access` was started. -/
def granted (t : List Effect) : Bool := decide (Effect.out Reg.PORTC 1 ∈ t)

/-- The text "Access denied!" was shown. -/
def denied (t : List Effect) : Bool := decide (Effect.lcdPuts Msg.accessDenied ∈ t)

/-- The number of one-second waits in a trace. -/
def secondsWaited (t : List Effect) : Nat := t.count (Effect.delayMs 1000)

/-- The time a countdown text shows, in seconds. -/
def shownSeconds : Effect → Option Nat
  | Effect.lcdPuts (Msg.wait min sec) => some (60 * min + sec)
  | _ => none

/-- The times shown by the countdown texts of a trace, in order. -/
def shownTimes (t : List Effect) : List Nat := t.filterMap shownSeconds

/-- The values written to `WAIT_TIMER` in a trace, in order. -/
def timerWrites (t : List Effect) : List Nat :=
  t.filterMap fun
    | Effect.eepromWriteWord v => some v
    | _ => none

/-- The calls `deny_access` makes before it tests the counter, for the prior counter `w`. -/
def denyEffects (w : Nat) : List Effect :=
  [Effect.eepromWriteByte ((w + 1) % 256), Effect.lcdClear, Effect.lcdPuts Msg.accessDenied,
   Effect.lcdSetCursorLine1 0, Effect.lcdPuts (Msg.tries ((w + 1) % 256) MAX_WRONG_TRIES),
   Effect.delayMs 2000]

/-- A sample state: the secret code has been typed after two wrong attempts. -/
def typedCode : State :=
  { eeprom := { waitTimer := 0, wrongTries := 2 }, cursor := 4, keystrokes := codeAt }

/-- A sample content of the uninitialised RAM. -/
def ramZero : Nat → Char := fun _ => '0'

/-- The list `n, n-1, ..., 1`. -/
def descending : Nat → List Nat
  | 0 => []
  | n + 1 => (n + 1) :: descending n

/-- The values written to `WRONG_TRIES` in a trace, in order. -/
def counterWrites (t : List Effect) : List Nat :=
  t.filterMap fun
    | Effect.eepromWriteByte v => some v
    | _ => none

/-- The lockdown was entered: `LOCKDOWN_WAIT` was written to `WAIT_TIMER`. -/
def lockdownEntered (t : List Effect) : Bool :=
  decide (Effect.eepromWriteWord LOCKDOWN_WAIT ∈ t)

/-- The keypad layout as the specification words it, `1 2 3 A / 4 5 6 B / 7 8 9 C / * 0 # D`,
row after row. -/
def specLayout : List Char :=
  ['1', '2', '3', 'A', '4', '5', '6', 'B', '7', '8', '9', 'C', '*', '0', '#', 'D']

/-- The minutes and seconds a countdown text shows. -/
def shownMinSec : Effect → Option (Nat × Nat)
  | Effect.lcdPuts (Msg.wait min sec) => some (min, sec)
  | _ => none

/-- The calls to the display in a trace, in order. -/
def lcdOutputs (t : List Effect) : List Effect :=
  t.filter fun
    | Effect.lcdInit => true
    | Effect.lcdClear => true
    | Effect.lcdPuts _ => true
    | Effect.lcdPutc _ => true
    | Effect.lcdSetCursorLine1 _ => true
    | _ => false

/-- Two symbols are of the same kind: both `C`, both `#`, or both data symbols. -/
def sameKind (a b : Char) : Bool := decide ((a = 'C' ↔ b = 'C') ∧ (a = '#' ↔ b = '#'))

/-- Two key sequences of the same length with `C` and `#` at the same positions. -/
def sameControls : List Char → List Char → Bool
  | [], [] => true
  | a :: as, b :: bs => sameKind a b && sameControls as bs
  | _, _ => false

/-- The passes of `while (1)` for a sequence of results of `scan_kb_matrix`, with no power
interruption. -/
def mainLoop (s : State) : List (Option (Fin 4 × Fin 4)) → State × List Effect
  | [] => (s, [])
  | k :: ks =>
    let r := loopIter s k
    let r2 := mainLoop r.1 ks
    (r2.1, r.2 ++ r2.2)

/-- The loop of `lock_device`, entered with the loop variable equal to the first argument and
cut by a power loss once `k` passes are complete (it ends by itself after fewer passes when the
loop variable reaches 0 before). -/
def countdownCut : Nat → Nat → Eeprom → Eeprom × List Effect
  | 0, _, e => (e, [])
  | _ + 1, 0, e => (e, [])
  | i + 1, k + 1, e =>
    let r := loopBody (i + 1) e
    let r2 := countdownCut i k r.1
    (r2.1, r.2 ++ r2.2)

/-- The function `lock_device()` cut by a power loss once `k` passes of its loop are complete:
the two final writes are not reached. -/
def lock_device_cut (k : Nat) (e : Eeprom) : Eeprom × List Effect :=
  if eeprom_read_word e = 0 then (e, [])
  else
    let r := countdownCut (eeprom_read_word e) k e
    (r.1, [Effect.lcdClear, Effect.lcdPuts Msg.deviceLocked] ++ r.2)

/-- The one-second ticks waited over a series of power cycles: for each `k` of the list the
device boots and its `lock_device` is cut after `k` ticks; the last boot runs `lock_device` to
its end. -/
def ticksOverPowerCycles : List Nat → Eeprom → Nat
  | [], e => secondsWaited (lock_device e).2
  | k :: ks, e =>
    secondsWaited (lock_device_cut k e).2 + ticksOverPowerCycles ks (lock_device_cut k e).1

/-- The function `deny_access()` cut by a power loss during its `_delay_ms(2000)`: the counter
has been written and the denial shown, the test of the counter is not reached. -/
def deny_access_cut (e : Eeprom) : Eeprom × List Effect :=
  let e1 := eeprom_write_byte e (eeprom_read_byte e + 1)
  (e1,
   [Effect.eepromWriteByte ((eeprom_read_byte e + 1) % 256), Effect.lcdClear,
    Effect.lcdPuts Msg.accessDenied, Effect.lcdSetCursorLine1 0,
    Effect.lcdPuts (Msg.tries (eeprom_read_byte e1) MAX_WRONG_TRIES), Effect.delayMs 2000])

/-- A number of rounds, each a denied submit whose `deny_access()` is cut by a power loss during
the two-second wait, followed by the `lock_device()` of the next boot. -/
def cutDenials : Nat → Eeprom → Eeprom × List Effect
  | 0, e => (e, [])
  | n + 1, e =>
    let r := deny_access_cut e
    let b := lock_device r.1
    let r2 := cutDenials n b.1
    (r2.1, r.2 ++ b.2 ++ r2.2)

/-! ## Auxiliary lemmas -/

theorem char_toNat_sub_eq_zero (x y : Char) :
    ((x.toNat : Int) - (y.toNat : Int) = 0) ↔ x = y := by
  constructor
  · intro h
    have h2 : x.toNat = y.toNat := by omega
    calc x = Char.ofNat x.toNat := (Char.ofNat_toNat x).symm
      _ = Char.ofNat y.toNat := by rw [h2]
      _ = y := Char.ofNat_toNat y
  · intro h
    subst h
    omega

theorem memcmp_eq_zero_iff (a b : Nat → Char) (n : Nat) :
    memcmp a b n = 0 ↔ ∀ k, k < n → a k = b k := by
  induction n with
  | zero => simp [memcmp]
  | succ n ih =>
    unfold memcmp
    by_cases h : memcmp a b n = 0
    · rw [if_neg (by simpa using h), char_toNat_sub_eq_zero]
      constructor
      · intro hn k hk
        rcases Nat.lt_succ_iff_lt_or_eq.mp hk with hlt | heq
        · exact ih.mp h k hlt
        · rw [heq]; exact hn
      · intro hall
        exact hall n (Nat.lt_succ_self n)
    · rw [if_pos h]
      constructor
      · intro h0
        exact absurd h0 h
      · intro hall
        exact absurd (ih.mpr fun k hk => hall k (Nat.lt_succ_of_lt hk)) h

theorem buffer_length (s : State) : s.buffer.length = s.cursor := by
  simp [State.buffer]

theorem buffer_eq_code_iff (s : State) :
    s.buffer = code ↔ s.cursor = sizeofCode ∧ ∀ k, k < sizeofCode → codeAt k = s.keystrokes k := by
  constructor
  · intro h
    have hlen : s.cursor = sizeofCode := by
      rw [← buffer_length s, h]; rfl
    refine ⟨hlen, ?_⟩
    have hb : [s.keystrokes 0, s.keystrokes 1, s.keystrokes 2, s.keystrokes 3] = code := by
      rw [← h]
      simp [State.buffer, hlen, sizeofCode, code, List.range_succ]
    intro k hk
    have hk4 : k < 4 := hk
    simp only [code, List.cons.injEq, and_true] at hb
    obtain ⟨h0, h1, h2, h3⟩ := hb
    interval_cases k
    · simpa [codeAt, code] using h0.symm
    · simpa [codeAt, code] using h1.symm
    · simpa [codeAt, code] using h2.symm
    · simpa [codeAt, code] using h3.symm
  · rintro ⟨hlen, hall⟩
    have h0 := hall 0 (by decide)
    have h1 := hall 1 (by decide)
    have h2 := hall 2 (by decide)
    have h3 := hall 3 (by decide)
    simp only [codeAt, code, List.getD_cons_zero, List.getD_cons_succ] at h0 h1 h2 h3
    simp [State.buffer, hlen, sizeofCode, code, List.range_succ, ← h0, ← h1, ← h2, ← h3]

theorem submitMismatch_eq_false_iff (s : State) :
    submitMismatch s = false ↔ s.buffer = code := by
  rw [buffer_eq_code_iff]
  unfold submitMismatch
  simp only [Bool.or_eq_false_iff, decide_eq_false_iff_not, not_not]
  constructor
  · rintro ⟨hm, hc⟩
    refine ⟨hc, ?_⟩
    rw [← hc]
    exact (memcmp_eq_zero_iff _ _ _).mp hm
  · rintro ⟨hc, hall⟩
    refine ⟨?_, hc⟩
    rw [memcmp_eq_zero_iff, hc]
    exact hall

/-! ### The countdown -/

theorem descending_succ (n : Nat) : descending (n + 1) = (n + 1) :: descending n := rfl

theorem mem_descending (n k : Nat) : k ∈ descending n ↔ 0 < k ∧ k ≤ n := by
  induction n with
  | zero =>
    simp only [descending, List.not_mem_nil, false_iff]
    omega
  | succ n ih =>
    rw [descending_succ, List.mem_cons, ih]
    omega

theorem countdown_trace (i : Nat) (e : Eeprom) :
    (countdown i e).2 = (descending i).flatMap tickEffects := by
  induction i generalizing e with
  | zero => rfl
  | succ i ih =>
    show tickEffects (i + 1) ++ (countdown i _).2 = _
    rw [ih, descending_succ, List.flatMap_cons]

theorem countdown_wrongTries (i : Nat) (e : Eeprom) :
    (countdown i e).1.wrongTries = e.wrongTries := by
  induction i generalizing e with
  | zero => rfl
  | succ i ih =>
    show (countdown i _).1.wrongTries = _
    rw [ih]
    rfl

theorem secondsWaited_ticks (n : Nat) :
    secondsWaited ((descending n).flatMap tickEffects) = n := by
  induction n with
  | zero => rfl
  | succ n ih =>
    unfold secondsWaited at ih ⊢
    rw [descending_succ, List.flatMap_cons, List.count_append, ih]
    simp [tickEffects, List.count_cons]
    omega

theorem shownTimes_ticks (n : Nat) :
    shownTimes ((descending n).flatMap tickEffects) =
      (descending n).map fun i => 60 * ((i / 60) % 256) + i % 60 := by
  induction n with
  | zero => rfl
  | succ n ih =>
    unfold shownTimes at ih ⊢
    rw [descending_succ, List.flatMap_cons, List.filterMap_append, ih]
    have h60 : (n + 1) % 60 % 256 = (n + 1) % 60 :=
      Nat.mod_eq_of_lt (lt_trans (Nat.mod_lt _ (by decide)) (by decide))
    simp [tickEffects, shownSeconds, h60]

theorem timerWrites_ticks (n : Nat) :
    timerWrites ((descending n).flatMap tickEffects) = (descending n).map (· % 65536) := by
  induction n with
  | zero => rfl
  | succ n ih =>
    unfold timerWrites at ih ⊢
    rw [descending_succ, List.flatMap_cons, List.filterMap_append, ih]
    simp [tickEffects]

theorem lock_device_of_zero (e : Eeprom) (h : e.waitTimer = 0) : lock_device e = (e, []) := by
  simp [lock_device, eeprom_read_word, h]

theorem lock_device_of_pos (e : Eeprom) (h : 0 < e.waitTimer) :
    lock_device e =
      ({ waitTimer := 0, wrongTries := 0 },
       [Effect.lcdClear, Effect.lcdPuts Msg.deviceLocked] ++
         (descending e.waitTimer).flatMap tickEffects ++
         [Effect.eepromWriteWord 0, Effect.eepromWriteByte 0]) := by
  have hne : ¬ e.waitTimer = 0 := by omega
  simp [lock_device, eeprom_read_word, hne, countdown_trace, eeprom_write_word,
    eeprom_write_byte]

theorem lock_device_waitTimer (e : Eeprom) : (lock_device e).1.waitTimer = 0 := by
  rcases Nat.eq_zero_or_pos e.waitTimer with h | h
  · rw [lock_device_of_zero e h]; exact h
  · rw [lock_device_of_pos e h]

/-! ### Denials -/

theorem deny_access_below (e : Eeprom) (h : (e.wrongTries + 1) % 256 < MAX_WRONG_TRIES) :
    deny_access e =
      ({ waitTimer := e.waitTimer, wrongTries := (e.wrongTries + 1) % 256 },
       denyEffects e.wrongTries) := by
  have h2 : ¬ MAX_WRONG_TRIES ≤ (e.wrongTries + 1) % 256 := by omega
  simp [deny_access, eeprom_read_byte, eeprom_write_byte, h2, denyEffects]

theorem deny_access_lock (e : Eeprom) (h : MAX_WRONG_TRIES ≤ (e.wrongTries + 1) % 256) :
    deny_access e =
      ({ waitTimer := 0, wrongTries := 0 },
       denyEffects e.wrongTries ++ [Effect.eepromWriteWord LOCKDOWN_WAIT] ++
         ([Effect.lcdClear, Effect.lcdPuts Msg.deviceLocked] ++
           (descending LOCKDOWN_WAIT).flatMap tickEffects ++
           [Effect.eepromWriteWord 0, Effect.eepromWriteByte 0])) := by
  have hpos : 0 < (eeprom_write_word (eeprom_write_byte e (eeprom_read_byte e + 1))
      LOCKDOWN_WAIT).waitTimer := by
    simp [eeprom_write_word, LOCKDOWN_WAIT]
  have hval : (eeprom_write_word (eeprom_write_byte e (eeprom_read_byte e + 1))
      LOCKDOWN_WAIT).waitTimer = LOCKDOWN_WAIT := by
    simp [eeprom_write_word, LOCKDOWN_WAIT]
  unfold deny_access
  simp only [ge_iff_le]
  rw [if_pos (by simpa [eeprom_read_byte, eeprom_write_byte] using h),
    lock_device_of_pos _ hpos, hval]
  rfl

theorem deny_access_waitTimer (e : Eeprom) (h : e.waitTimer = 0) :
    (deny_access e).1.waitTimer = 0 := by
  by_cases hw : MAX_WRONG_TRIES ≤ (e.wrongTries + 1) % 256
  · rw [deny_access_lock e hw]
  · rw [deny_access_below e (by omega)]
    exact h

theorem denials_zero (e : Eeprom) : denials 0 e = (e, []) := rfl

theorem denials_succ (n : Nat) (e : Eeprom) :
    denials (n + 1) e =
      ((denials n (deny_access e).1).1, (deny_access e).2 ++ (denials n (deny_access e).1).2) :=
  rfl

theorem shown_eq_of_lt (k : Nat) (h : k < 15360) : 60 * ((k / 60) % 256) + k % 60 = k := by
  have hq : k / 60 < 256 := by omega
  rw [Nat.mod_eq_of_lt hq]
  exact Nat.div_add_mod k 60

theorem shownTimes_lock_device (e : Eeprom) (h : 0 < e.waitTimer) :
    shownTimes (lock_device e).2 =
      (descending e.waitTimer).map fun i => 60 * ((i / 60) % 256) + i % 60 := by
  rw [lock_device_of_pos e h]
  have ht := shownTimes_ticks e.waitTimer
  unfold shownTimes at ht ⊢
  simp only [List.filterMap_append, ht]
  simp [shownSeconds]

theorem secondsWaited_lock_device (e : Eeprom) (h : 0 < e.waitTimer) :
    secondsWaited (lock_device e).2 = e.waitTimer := by
  rw [lock_device_of_pos e h]
  have ht := secondsWaited_ticks e.waitTimer
  unfold secondsWaited at ht ⊢
  simp only [List.count_append, ht]
  simp

theorem loopBody_waitTimer (i : Nat) (e : Eeprom) (h : i < 65536) :
    (loopBody i e).1.waitTimer = i := by
  simp [loopBody, eeprom_write_word, Nat.mod_eq_of_lt h]

theorem countdown_succ (i : Nat) (e : Eeprom) :
    countdown (i + 1) e =
      ((countdown i (loopBody (i + 1) e).1).1,
       (loopBody (i + 1) e).2 ++ (countdown i (loopBody (i + 1) e).1).2) :=
  rfl

theorem descending_get (n j : Nat) :
    (descending n)[j]? = if j < n then some (n - j) else none := by
  induction n generalizing j with
  | zero => simp [descending]
  | succ n ih =>
    rw [descending_succ]
    cases j with
    | zero => simp
    | succ j =>
      rw [List.getElem?_cons_succ, ih]
      by_cases h : j < n
      · rw [if_pos h, if_pos (by omega)]
        congr 1
        omega
      · rw [if_neg h, if_neg (by omega)]

set_option maxRecDepth 100000 in
theorem three_wrong_codes_from_boot :
    (typeKeys (boot { waitTimer := 0, wrongTries := 0 } ramZero).1
      ['1', '2', '3', '4', '#', '0', '0', '0', '0', '#']).1.eeprom =
        { waitTimer := 0, wrongTries := 2 } ∧
    secondsWaited (typeKeys (boot { waitTimer := 0, wrongTries := 0 } ramZero).1
      ['1', '2', '3', '4', '#', '0', '0', '0', '0', '#']).2 = 0 ∧
    (typeKeys (boot { waitTimer := 0, wrongTries := 0 } ramZero).1
      ['1', '2', '3', '4', '#', '0', '0', '0', '0', '#', '9', '9', '9', '9', '#']).2.count
        (Effect.lcdPuts Msg.accessDenied) = 3 ∧
    secondsWaited (typeKeys (boot { waitTimer := 0, wrongTries := 0 } ramZero).1
      ['1', '2', '3', '4', '#', '0', '0', '0', '0', '#', '9', '9', '9', '9', '#']).2 = 300 ∧
    (typeKeys (boot { waitTimer := 0, wrongTries := 0 } ramZero).1
      ['1', '2', '3', '4', '#', '0', '0', '0', '0', '#', '9', '9', '9', '9', '#']).1.eeprom =
        { waitTimer := 0, wrongTries := 0 } := by
  refine ⟨?_, ?_, ?_, ?_, ?_⟩ <;> decide

theorem grant_access_waitTimer (e : Eeprom) : (grant_access e).1.waitTimer = e.waitTimer := rfl

theorem onKey_waitTimer (s : State) (c : Char) (h : s.eeprom.waitTimer = 0) :
    (onKey s c).1.eeprom.waitTimer = 0 := by
  unfold onKey
  split
  · exact h
  · split
    · show (if submitMismatch s then deny_access s.eeprom
        else grant_access s.eeprom).1.waitTimer = 0
      split
      · exact deny_access_waitTimer _ h
      · exact h
    · exact h

/-! ### Traces of the submit branch -/

theorem mem_ticks (n : Nat) (x : Effect) (h : x ∈ (descending n).flatMap tickEffects) :
    x = Effect.lcdSetCursorLine1 0 ∨ (∃ m c, x = Effect.lcdPuts (Msg.wait m c)) ∨
      x = Effect.delayMs 1000 ∨ ∃ v, x = Effect.eepromWriteWord v := by
  rw [List.mem_flatMap] at h
  obtain ⟨i, -, hx⟩ := h
  simp only [tickEffects, List.mem_cons, List.mem_singleton, List.not_mem_nil, or_false] at hx
  rcases hx with hx | hx | hx | hx
  · exact Or.inl hx
  · exact Or.inr (Or.inl ⟨_, _, hx⟩)
  · exact Or.inr (Or.inr (Or.inl hx))
  · exact Or.inr (Or.inr (Or.inr ⟨_, hx⟩))

theorem pulse_not_mem_ticks (n : Nat) :
    Effect.out Reg.PORTC 1 ∉ (descending n).flatMap tickEffects := by
  intro h
  rcases mem_ticks n _ h with h | ⟨_, _, h⟩ | h | ⟨_, h⟩ <;> cases h

theorem granted_deny_access (e : Eeprom) : granted (deny_access e).2 = false := by
  have hp := pulse_not_mem_ticks LOCKDOWN_WAIT
  by_cases hw : MAX_WRONG_TRIES ≤ (e.wrongTries + 1) % 256
  · rw [deny_access_lock e hw]
    simp [granted, denyEffects, hp]
  · rw [deny_access_below e (by omega)]
    simp [granted, denyEffects]

theorem denied_deny_access (e : Eeprom) : denied (deny_access e).2 = true := by
  by_cases hw : MAX_WRONG_TRIES ≤ (e.wrongTries + 1) % 256
  · rw [deny_access_lock e hw]
    simp [denied, denyEffects]
  · rw [deny_access_below e (by omega)]
    simp [denied, denyEffects]

theorem onKey_submit (s : State) :
    onKey s '#' =
      ((wait_for_passcode { s with eeprom :=
          (if submitMismatch s then deny_access s.eeprom else grant_access s.eeprom).1 }).1,
       (if submitMismatch s then deny_access s.eeprom else grant_access s.eeprom).2 ++
         [Effect.lcdClear, Effect.lcdPuts Msg.enterPasscode, Effect.lcdSetCursorLine1 0]) := by
  unfold onKey
  rw [if_neg (by decide), if_pos rfl]
  rfl

theorem onKey_clear (s : State) : onKey s 'C' = wait_for_passcode s := by
  unfold onKey
  rw [if_pos rfl]

theorem onKey_data (s : State) (c : Char) (hC : c ≠ 'C') (hS : c ≠ '#') :
    onKey s c =
      ({ s with keystrokes := Function.update s.keystrokes s.cursor c,
                cursor := (s.cursor + 1) % 256 },
       [Effect.lcdPutc '*']) := by
  unfold onKey
  rw [if_neg hC, if_neg hS]

theorem granted_onKey_submit (s : State) :
    granted (onKey s '#').2 = !submitMismatch s := by
  rw [onKey_submit]
  cases hm : submitMismatch s
  · simp [granted, grant_access]
  · have hd := granted_deny_access s.eeprom
    simp only [granted, decide_eq_false_iff_not] at hd
    simp [granted, hd]

theorem denied_onKey_submit (s : State) :
    denied (onKey s '#').2 = submitMismatch s := by
  rw [onKey_submit]
  cases hm : submitMismatch s
  · simp [denied, grant_access]
  · have hd := denied_deny_access s.eeprom
    simp only [denied, decide_eq_true_eq] at hd
    simp [denied, hd]

/-! ## The claims -/

/-- C1: for every state `s` (every cursor value and every contents of `keystrokes`), the test
`memcmp(code, keystrokes, cursor) || cursor != sizeof(code)` of the submit branch is false exactly
when the candidate buffer has the length of the secret code and equals it element by element;
pressing `#` then runs `grant_access` (the relay is pulsed), and for every other buffer it runs
`deny_access` ("Access denied!" is shown). -/
theorem C1_submit_grants_iff_buffer_is_code (s : State) :
    (submitMismatch s = false ↔ s.buffer.length = code.length ∧ s.buffer = code) ∧
    (granted (onKey s '#').2 = true ↔ s.buffer.length = code.length ∧ s.buffer = code) ∧
    (denied (onKey s '#').2 = true ↔ ¬ (s.buffer.length = code.length ∧ s.buffer = code)) ∧
    ((s.buffer.length = code.length ∧ s.buffer = code) →
      (onKey s '#').2 = (grant_access s.eeprom).2 ++ (wait_for_passcode s).2) ∧
    (¬ (s.buffer.length = code.length ∧ s.buffer = code) →
      (onKey s '#').2 = (deny_access s.eeprom).2 ++ (wait_for_passcode s).2) := by
  have hiff : (s.buffer.length = code.length ∧ s.buffer = code) ↔ submitMismatch s = false := by
    rw [submitMismatch_eq_false_iff]
    constructor
    · exact fun h => h.2
    · exact fun h => ⟨by rw [h], h⟩
  refine ⟨hiff.symm, ?_, ?_, ?_, ?_⟩
  · rw [hiff, granted_onKey_submit]
    cases submitMismatch s <;> simp
  · rw [hiff, denied_onKey_submit]
    cases submitMismatch s <;> simp
  · intro h
    rw [onKey_submit, hiff.mp h]
    rfl
  · intro h
    have hm : submitMismatch s = true := by
      cases hs : submitMismatch s
      · exact absurd (hiff.mpr hs) h
      · rfl
    rw [onKey_submit, hm]
    rfl

/-- Witness of C1 at the state in which `1337` has been typed: the buffer equals the code and the
relay is pulsed. -/
theorem C1_submit_grants_witness :
    (typedCode.buffer.length = code.length ∧ typedCode.buffer = code) ∧
    (onKey typedCode '#').2 = (grant_access typedCode.eeprom).2 ++ (wait_for_passcode typedCode).2 :=
  ⟨⟨by decide, by decide⟩,
   (C1_submit_grants_iff_buffer_is_code typedCode).2.2.2.1 ⟨by decide, by decide⟩⟩

/-- C2: from the store with `wrong_tries = 0` and `lockdown_remaining = 0`, the first and the
second call of `deny_access` leave `lockdown_remaining = 0`, write nothing to it and wait no
one-second tick; the third writes `lockdown_remaining = 300` and runs the countdown over
300, 299, ..., 1 (300 one-second ticks) inside the call, which returns only with
`lockdown_remaining = 0`. The same is observed on the main loop when `1234#`, `0000#` and
`9999#` are typed after boot. -/
theorem C2_third_denial_locks_for_full_duration :
    deny_access { waitTimer := 0, wrongTries := 0 } =
      ({ waitTimer := 0, wrongTries := 1 }, denyEffects 0) ∧
    deny_access { waitTimer := 0, wrongTries := 1 } =
      ({ waitTimer := 0, wrongTries := 2 }, denyEffects 1) ∧
    timerWrites (denyEffects 0) = [] ∧ secondsWaited (denyEffects 0) = 0 ∧
    timerWrites (denyEffects 1) = [] ∧ secondsWaited (denyEffects 1) = 0 ∧
    (deny_access { waitTimer := 0, wrongTries := 2 }).2 =
      denyEffects 2 ++ [Effect.eepromWriteWord LOCKDOWN_WAIT] ++
        ([Effect.lcdClear, Effect.lcdPuts Msg.deviceLocked] ++
          (descending LOCKDOWN_WAIT).flatMap tickEffects ++
          [Effect.eepromWriteWord 0, Effect.eepromWriteByte 0]) ∧
    LOCKDOWN_WAIT = 300 ∧
    secondsWaited (deny_access { waitTimer := 0, wrongTries := 2 }).2 = 300 ∧
    (deny_access { waitTimer := 0, wrongTries := 2 }).1 = { waitTimer := 0, wrongTries := 0 } ∧
    (denials MAX_WRONG_TRIES { waitTimer := 0, wrongTries := 0 }).1 =
      { waitTimer := 0, wrongTries := 0 } ∧
    secondsWaited (denials MAX_WRONG_TRIES { waitTimer := 0, wrongTries := 0 }).2 = 300 ∧
    (typeKeys (boot { waitTimer := 0, wrongTries := 0 } ramZero).1
      ['1', '2', '3', '4', '#', '0', '0', '0', '0', '#']).1.eeprom =
        { waitTimer := 0, wrongTries := 2 } ∧
    secondsWaited (typeKeys (boot { waitTimer := 0, wrongTries := 0 } ramZero).1
      ['1', '2', '3', '4', '#', '0', '0', '0', '0', '#']).2 = 0 ∧
    (typeKeys (boot { waitTimer := 0, wrongTries := 0 } ramZero).1
      ['1', '2', '3', '4', '#', '0', '0', '0', '0', '#', '9', '9', '9', '9', '#']).2.count
        (Effect.lcdPuts Msg.accessDenied) = 3 ∧
    secondsWaited (typeKeys (boot { waitTimer := 0, wrongTries := 0 } ramZero).1
      ['1', '2', '3', '4', '#', '0', '0', '0', '0', '#', '9', '9', '9', '9', '#']).2 = 300 ∧
    (typeKeys (boot { waitTimer := 0, wrongTries := 0 } ramZero).1
      ['1', '2', '3', '4', '#', '0', '0', '0', '0', '#', '9', '9', '9', '9', '#']).1.eeprom =
        { waitTimer := 0, wrongTries := 0 } := by
  have h1 : deny_access { waitTimer := 0, wrongTries := 0 } =
      ({ waitTimer := 0, wrongTries := 1 }, denyEffects 0) :=
    deny_access_below _ (by decide)
  have h2 : deny_access { waitTimer := 0, wrongTries := 1 } =
      ({ waitTimer := 0, wrongTries := 2 }, denyEffects 1) :=
    deny_access_below _ (by decide)
  have h3 := deny_access_lock { waitTimer := 0, wrongTries := 2 } (by decide)
  have hs : secondsWaited (deny_access { waitTimer := 0, wrongTries := 2 }).2 = 300 := by
    rw [h3]
    have ht := secondsWaited_ticks LOCKDOWN_WAIT
    unfold secondsWaited at ht ⊢
    simp only [List.count_append, ht]
    simp [denyEffects, LOCKDOWN_WAIT]
  refine ⟨h1, h2, by decide, by decide, by decide, by decide, ?_, rfl, hs, ?_, ?_, ?_,
    three_wrong_codes_from_boot⟩
  · rw [h3]
  · rw [h3]
  · rw [show MAX_WRONG_TRIES = 0 + 1 + 1 + 1 from rfl]
    simp only [denials_succ, denials_zero, h1, h2, h3]
  · rw [show MAX_WRONG_TRIES = 0 + 1 + 1 + 1 from rfl]
    simp only [denials_succ, denials_zero, h1, h2]
    unfold secondsWaited at hs ⊢
    simp only [List.count_append, hs]
    simp [denyEffects]

/-- C3: for every prior content of the store, `grant_access` leaves `wrong_tries = 0` and does
not change `lockdown_remaining`; so does pressing `#` with the secret code in the buffer. -/
theorem C3_grant_resets_wrong_tries (e : Eeprom) (s : State) (h : s.buffer = code) :
    (grant_access e).1.wrongTries = 0 ∧
    (grant_access e).1.waitTimer = e.waitTimer ∧
    (onKey s '#').1.eeprom.wrongTries = 0 ∧
    (onKey s '#').1.eeprom.waitTimer = s.eeprom.waitTimer := by
  have hm := (submitMismatch_eq_false_iff s).mpr h
  rw [onKey_submit, hm]
  exact ⟨rfl, rfl, rfl, rfl⟩

/-- Witness of C3: the counter 255 in the store, and the state in which `1337` has been typed. -/
theorem C3_grant_resets_witness :
    typedCode.buffer = code ∧
    (grant_access { waitTimer := 7, wrongTries := 255 }).1.wrongTries = 0 ∧
    (grant_access { waitTimer := 7, wrongTries := 255 }).1.waitTimer = 7 ∧
    (onKey typedCode '#').1.eeprom.wrongTries = 0 ∧
    (onKey typedCode '#').1.eeprom.waitTimer = typedCode.eeprom.waitTimer :=
  ⟨by decide, C3_grant_resets_wrong_tries { waitTimer := 7, wrongTries := 255 } typedCode
    (by decide)⟩

/-- C4, counterexample: resumed from the persisted value 15360 (256 minutes), the first tick
shows `00 m 00 s`, not the remaining time, because the minutes are kept in a `uint8_t`. -/
theorem C4_display_wraps_at_256_minutes :
    0 < 15360 ∧ 15360 ≤ 65535 ∧
    (shownTimes (lock_device { waitTimer := 15360, wrongTries := 0 }).2).head? = some 0 ∧
    shownTimes (lock_device { waitTimer := 15360, wrongTries := 0 }).2 ≠ descending 15360 := by
  have hs := shownTimes_lock_device { waitTimer := 15360, wrongTries := 0 } (by decide)
  have hd : descending 15360 = 15360 :: descending 15359 := descending_succ 15359
  simp only [hd, List.map_cons] at hs
  refine ⟨by decide, by decide, ?_, ?_⟩
  · rw [hs]
    rfl
  · rw [hs, hd]
    intro h
    have h0 := (List.cons.inj h).1
    exact absurd h0 (by decide)

/-- C4, amended: for every persisted value `R` with `0 < R <= 65535` and every counter `w`,
`lock_device` runs exactly `R` one-second ticks, one for each of `R, R-1, ..., 1` in that order
and whatever `LOCKDOWN_WAIT` is, and returns with both cells cleared; the tick for `i` shows
`(i / 60) mod 256` minutes and `i mod 60` seconds, which is the remaining time `i` whenever
`i < 15360`. -/
theorem C4_lock_device_resumes_from_persisted_value (R w : Nat) (hpos : 0 < R)
    (hle : R ≤ 65535) :
    (lock_device { waitTimer := R, wrongTries := w }).2 =
      [Effect.lcdClear, Effect.lcdPuts Msg.deviceLocked] ++
        (descending R).flatMap tickEffects ++
        [Effect.eepromWriteWord 0, Effect.eepromWriteByte 0] ∧
    secondsWaited (lock_device { waitTimer := R, wrongTries := w }).2 = R ∧
    shownTimes (lock_device { waitTimer := R, wrongTries := w }).2 =
      (descending R).map (fun i => 60 * ((i / 60) % 256) + i % 60) ∧
    (R < 15360 →
      shownTimes (lock_device { waitTimer := R, wrongTries := w }).2 = descending R) ∧
    (∀ j, j < R → R - j < 15360 →
      (shownTimes (lock_device { waitTimer := R, wrongTries := w }).2)[j]? = some (R - j)) ∧
    timerWrites (lock_device { waitTimer := R, wrongTries := w }).2 = descending R ++ [0] ∧
    (lock_device { waitTimer := R, wrongTries := w }).1 = { waitTimer := 0, wrongTries := 0 } := by
  have hp : 0 < ({ waitTimer := R, wrongTries := w } : Eeprom).waitTimer := hpos
  have hshown := shownTimes_lock_device _ hp
  refine ⟨?_, secondsWaited_lock_device _ hp, hshown, ?_, ?_, ?_, ?_⟩
  · rw [lock_device_of_pos _ hp]
  · intro hR
    rw [hshown]
    calc (descending R).map (fun i => 60 * ((i / 60) % 256) + i % 60)
        = (descending R).map id := by
          apply List.map_congr_left
          intro k hk
          have hk2 := (mem_descending R k).mp hk
          exact shown_eq_of_lt k (by omega)
      _ = descending R := List.map_id _
  · intro j hj hlt
    rw [hshown, List.getElem?_map, descending_get, if_pos hj]
    show some (60 * (((R - j) / 60) % 256) + (R - j) % 60) = some (R - j)
    rw [shown_eq_of_lt _ hlt]
  · rw [lock_device_of_pos _ hp]
    have ht := timerWrites_ticks R
    unfold timerWrites at ht ⊢
    simp only [List.filterMap_append, ht]
    have hm : (descending R).map (· % 65536) = (descending R).map id := by
      apply List.map_congr_left
      intro k hk
      have hk2 := (mem_descending R k).mp hk
      exact Nat.mod_eq_of_lt (by omega)
    rw [hm, List.map_id]
    simp
  · rw [lock_device_of_pos _ hp]

/-- Witness of C4 at `R = 2`, with three wrong tries in the store. -/
theorem C4_lock_device_resumes_witness :
    (0 < 2 ∧ 2 ≤ 65535 ∧ 2 < 15360) ∧
    secondsWaited (lock_device { waitTimer := 2, wrongTries := 3 }).2 = 2 ∧
    shownTimes (lock_device { waitTimer := 2, wrongTries := 3 }).2 = [2, 1] ∧
    (shownTimes (lock_device { waitTimer := 2, wrongTries := 3 }).2)[1]? = some (2 - 1) :=
  ⟨by decide,
   (C4_lock_device_resumes_from_persisted_value 2 3 (by decide) (by decide)).2.1,
   (C4_lock_device_resumes_from_persisted_value 2 3 (by decide) (by decide)).2.2.2.1
     (by decide),
   (C4_lock_device_resumes_from_persisted_value 2 3 (by decide) (by decide)).2.2.2.2.1 1
     (by decide) (by decide)⟩

/-- C5, the code at the failing input: after boot the keys `1 2 3 4` fill the buffer
(`cursor = sizeof(code)`); the fifth data key `5` is not dropped: it is stored at offset
`sizeof(code)`, outside the array, and `cursor` becomes `sizeof(code) + 1`. -/
theorem C5_fifth_symbol_is_written_past_the_array :
    (typeKeys (boot { waitTimer := 0, wrongTries := 0 } ramZero).1
      ['1', '2', '3', '4']).1.cursor = sizeofCode ∧
    (typeKeys (boot { waitTimer := 0, wrongTries := 0 } ramZero).1
      ['1', '2', '3', '4', '5']).1.cursor = sizeofCode + 1 ∧
    (typeKeys (boot { waitTimer := 0, wrongTries := 0 } ramZero).1
      ['1', '2', '3', '4']).1.keystrokes sizeofCode = '0' ∧
    (typeKeys (boot { waitTimer := 0, wrongTries := 0 } ramZero).1
      ['1', '2', '3', '4', '5']).1.keystrokes sizeofCode = '5' ∧
    (typeKeys (boot { waitTimer := 0, wrongTries := 0 } ramZero).1
      ['1', '2', '3', '4', '5']).1.buffer = ['1', '2', '3', '4', '5'] := by
  refine ⟨?_, ?_, ?_, ?_, ?_⟩ <;> decide

/-- C6: in every state, the clear symbol `C` leaves `cursor = 0`, that is an empty candidate
buffer, and changes neither cell of the EEPROM. -/
theorem C6_clear_empties_buffer (s : State) :
    (onKey s 'C').1.cursor = 0 ∧
    (onKey s 'C').1.buffer = [] ∧
    (onKey s 'C').1.eeprom.wrongTries = s.eeprom.wrongTries ∧
    (onKey s 'C').1.eeprom.waitTimer = s.eeprom.waitTimer ∧
    timerWrites (onKey s 'C').2 = [] ∧
    Effect.lcdPuts Msg.enterPasscode ∈ (onKey s 'C').2 := by
  rw [onKey_clear]
  refine ⟨rfl, rfl, rfl, rfl, rfl, ?_⟩
  simp [wait_for_passcode]

/-- C7: for every store with `lockdown_remaining > 0` and every `wrong_tries`, the store that
`lock_device` returns with has `lockdown_remaining = 0` and `wrong_tries = 0`. -/
theorem C7_lock_device_clears_both_cells (e : Eeprom) (h : 0 < e.waitTimer) :
    (lock_device e).1.waitTimer = 0 ∧ (lock_device e).1.wrongTries = 0 := by
  rw [lock_device_of_pos e h]
  exact ⟨rfl, rfl⟩

/-- Witness of C7 at the store with 2 seconds remaining and 200 wrong tries. -/
theorem C7_lock_device_clears_witness :
    (lock_device { waitTimer := 2, wrongTries := 200 }).1.waitTimer = 0 ∧
    (lock_device { waitTimer := 2, wrongTries := 200 }).1.wrongTries = 0 :=
  C7_lock_device_clears_both_cells { waitTimer := 2, wrongTries := 200 } (by decide)

/-- C8: for every store with `lockdown_remaining = 0`, `lock_device` returns at once: the store
is unchanged and no call to the display (or to anything else) is made, so `boot` hands the store
unchanged to the main loop. Hence `k` denials, a power cycle and `MAX_WRONG_TRIES - k` more
denials (`0 < k < MAX_WRONG_TRIES`) write `lockdown_remaining = LOCKDOWN_WAIT` and run the full
countdown, which the denials before the power cycle did not. -/
theorem C8_wrong_tries_survive_power_cycle (e : Eeprom) (ram : Nat → Char) (k : Nat)
    (h0 : e.waitTimer = 0) (hk : 0 < k) (hk3 : k < MAX_WRONG_TRIES) :
    lock_device e = (e, []) ∧
    (boot e ram).1.eeprom = e ∧
    (denials k { waitTimer := 0, wrongTries := 0 }).1 = { waitTimer := 0, wrongTries := k } ∧
    timerWrites (denials k { waitTimer := 0, wrongTries := 0 }).2 = [] ∧
    lock_device (denials k { waitTimer := 0, wrongTries := 0 }).1 =
      ((denials k { waitTimer := 0, wrongTries := 0 }).1, []) ∧
    Effect.eepromWriteWord LOCKDOWN_WAIT ∈
      (denials (MAX_WRONG_TRIES - k)
        (lock_device (denials k { waitTimer := 0, wrongTries := 0 }).1).1).2 ∧
    secondsWaited
      (denials (MAX_WRONG_TRIES - k)
        (lock_device (denials k { waitTimer := 0, wrongTries := 0 }).1).1).2 = LOCKDOWN_WAIT ∧
    (denials (MAX_WRONG_TRIES - k)
        (lock_device (denials k { waitTimer := 0, wrongTries := 0 }).1).1).1 =
      { waitTimer := 0, wrongTries := 0 } := by
  have hl := lock_device_of_zero e h0
  have h1 : deny_access { waitTimer := 0, wrongTries := 0 } =
      ({ waitTimer := 0, wrongTries := 1 }, denyEffects 0) :=
    deny_access_below _ (by decide)
  have h2 : deny_access { waitTimer := 0, wrongTries := 1 } =
      ({ waitTimer := 0, wrongTries := 2 }, denyEffects 1) :=
    deny_access_below _ (by decide)
  have h3 := deny_access_lock { waitTimer := 0, wrongTries := 2 } (by decide)
  have ht := secondsWaited_ticks LOCKDOWN_WAIT
  unfold secondsWaited at ht
  have hk3b : k < 3 := hk3
  refine ⟨hl, ?_, ?_⟩
  · show (lock_device e).1 = e
    rw [hl]
  · interval_cases k
    · have hd : denials 1 { waitTimer := 0, wrongTries := 0 } =
          ({ waitTimer := 0, wrongTries := 1 }, denyEffects 0 ++ []) := by
        rw [show (1 : Nat) = 0 + 1 from rfl, denials_succ, denials_zero, h1]
      have hlz := lock_device_of_zero { waitTimer := 0, wrongTries := 1 } rfl
      have ha : denials (MAX_WRONG_TRIES - 1) { waitTimer := 0, wrongTries := 1 } =
          ((denials 0 (deny_access (deny_access { waitTimer := 0, wrongTries := 1 }).1).1).1,
           (deny_access { waitTimer := 0, wrongTries := 1 }).2 ++
            ((deny_access (deny_access { waitTimer := 0, wrongTries := 1 }).1).2 ++
              (denials 0 (deny_access (deny_access
                { waitTimer := 0, wrongTries := 1 }).1).1).2)) := by
        rw [show MAX_WRONG_TRIES - 1 = 0 + 1 + 1 from rfl, denials_succ, denials_succ]
      rw [hd, hlz, ha, h2, h3, denials_zero]
      refine ⟨rfl, by decide, rfl, ?_, ?_, rfl⟩
      · simp
      · unfold secondsWaited
        simp only [List.count_append, ht]
        simp [denyEffects]
    · have hd : denials 2 { waitTimer := 0, wrongTries := 0 } =
          ({ waitTimer := 0, wrongTries := 2 }, denyEffects 0 ++ (denyEffects 1 ++ [])) := by
        rw [show (2 : Nat) = 0 + 1 + 1 from rfl, denials_succ, denials_succ, denials_zero, h1,
          h2]
      have hlz := lock_device_of_zero { waitTimer := 0, wrongTries := 2 } rfl
      have ha : denials (MAX_WRONG_TRIES - 2) { waitTimer := 0, wrongTries := 2 } =
          ((denials 0 (deny_access { waitTimer := 0, wrongTries := 2 }).1).1,
           (deny_access { waitTimer := 0, wrongTries := 2 }).2 ++
            (denials 0 (deny_access { waitTimer := 0, wrongTries := 2 }).1).2) := by
        rw [show MAX_WRONG_TRIES - 2 = 0 + 1 from rfl, denials_succ]
      rw [hd, hlz, ha, h3, denials_zero]
      refine ⟨rfl, by decide, rfl, ?_, ?_, rfl⟩
      · simp
      · unfold secondsWaited
        simp only [List.count_append, ht]
        simp [denyEffects]

/-- Witness of C8: one denial before the power cycle and two after it; the store at the power
cycle holds one wrong try and no lockdown. -/
theorem C8_wrong_tries_survive_witness :
    lock_device { waitTimer := 0, wrongTries := 1 } = ({ waitTimer := 0, wrongTries := 1 }, []) ∧
    secondsWaited
      (denials (MAX_WRONG_TRIES - 1)
        (lock_device (denials 1 { waitTimer := 0, wrongTries := 0 }).1).1).2 = LOCKDOWN_WAIT :=
  ⟨(C8_wrong_tries_survive_power_cycle { waitTimer := 0, wrongTries := 1 } ramZero 1 rfl
      (by decide) (by decide)).1,
   (C8_wrong_tries_survive_power_cycle { waitTimer := 0, wrongTries := 1 } ramZero 1 rfl
      (by decide) (by decide)).2.2.2.2.2.2.1⟩

/-- C9, the code at the failing input: in the countdown started by the third denial, the tick
entered with the in-memory value 300 writes 300 to the EEPROM, not 299, and the loop goes on
with the in-memory value 299 while the EEPROM still holds 300; when the tick for 299 is over,
the EEPROM holds 299 and the in-memory value is 298. -/
theorem C9_tick_writes_the_undecremented_value :
    (loopBody 300 { waitTimer := 300, wrongTries := 3 }).1.waitTimer = 300 ∧
    (loopBody 300 { waitTimer := 300, wrongTries := 3 }).1.waitTimer ≠ 300 - 1 ∧
    countdown 300 { waitTimer := 300, wrongTries := 3 } =
      ((countdown 299 (loopBody 300 { waitTimer := 300, wrongTries := 3 }).1).1,
       (loopBody 300 { waitTimer := 300, wrongTries := 3 }).2 ++
         (countdown 299 (loopBody 300 { waitTimer := 300, wrongTries := 3 }).1).2) ∧
    (loopBody 299 (loopBody 300 { waitTimer := 300, wrongTries := 3 }).1).1.waitTimer = 299 :=
  ⟨by decide, by decide, countdown_succ 299 _, by decide⟩

/-- C10: in every state in which the main loop polls the keypad - after boot from any EEPROM
and RAM contents, and after every pass of the loop, with or without a key - the persisted
`lockdown_remaining` is 0. -/
theorem C10_polling_only_when_unlocked (s : State) (h : Polling s) :
    s.eeprom.waitTimer = 0 := by
  induction h with
  | boot e ram => exact lock_device_waitTimer e
  | iter s k _ ih =>
    cases k with
    | none => exact ih
    | some rc => exact onKey_waitTimer s _ ih

/-- Witness of C10: boot with 120 seconds of lockdown outstanding and two wrong tries, then a
submit with an empty buffer (the key in row 3, column 2), which is a wrong try. -/
theorem C10_polling_only_when_unlocked_witness :
    (loopIter (boot { waitTimer := 120, wrongTries := 2 } ramZero).1
      (some (3, 2))).1.eeprom.waitTimer = 0 :=
  C10_polling_only_when_unlocked _
    (Polling.iter _ (some (3, 2)) (Polling.boot { waitTimer := 120, wrongTries := 2 } ramZero))

/-! ### Lemmas on the denial trace -/

theorem lockdownEntered_denyEffects (w : Nat) : lockdownEntered (denyEffects w) = false := by
  simp [lockdownEntered, denyEffects]

theorem counterWrites_denyEffects (w : Nat) (t : List Effect) :
    (counterWrites (denyEffects w ++ t)).head? = some ((w + 1) % 256) := by
  simp [counterWrites, denyEffects]

theorem deny_access_trace (e : Eeprom) :
    (deny_access e).2 =
      denyEffects e.wrongTries ++
        (if MAX_WRONG_TRIES ≤ (e.wrongTries + 1) % 256 then
          Effect.eepromWriteWord LOCKDOWN_WAIT ::
            (lock_device { waitTimer := LOCKDOWN_WAIT, wrongTries := (e.wrongTries + 1) % 256 }).2
         else []) := by
  by_cases hw : MAX_WRONG_TRIES ≤ (e.wrongTries + 1) % 256
  · rw [deny_access_lock e hw, if_pos hw,
      lock_device_of_pos { waitTimer := LOCKDOWN_WAIT, wrongTries := (e.wrongTries + 1) % 256 }
        (show 0 < LOCKDOWN_WAIT by decide)]
    simp
  · rw [deny_access_below e (by omega), if_neg hw]
    simp

theorem secondsWaited_deny_access_lock (e : Eeprom)
    (h : MAX_WRONG_TRIES ≤ (e.wrongTries + 1) % 256) :
    secondsWaited (deny_access e).2 = LOCKDOWN_WAIT := by
  rw [deny_access_lock e h]
  have ht := secondsWaited_ticks LOCKDOWN_WAIT
  unfold secondsWaited at ht ⊢
  simp only [List.count_append, ht]
  simp [denyEffects]

theorem secondsWaited_deny_access_below (e : Eeprom)
    (h : (e.wrongTries + 1) % 256 < MAX_WRONG_TRIES) :
    secondsWaited (deny_access e).2 = 0 := by
  rw [deny_access_below e h]
  simp [secondsWaited, denyEffects]

/-! ## Claims C11 and C12 -/

/-- C11, counterexample: with the counter at 255 the stored value is 0, not 256, and no lockdown
is entered although `255 + 1 >= MAX_WRONG_TRIES`: the width of the cell decides. -/
theorem C11_counter_wraps_at_255 :
    (counterWrites (deny_access { waitTimer := 0, wrongTries := 255 }).2).head? = some 0 ∧
    lockdownEntered (deny_access { waitTimer := 0, wrongTries := 255 }).2 = false ∧
    secondsWaited (deny_access { waitTimer := 0, wrongTries := 255 }).2 = 0 ∧
    MAX_WRONG_TRIES ≤ 255 + 1 ∧
    (deny_access { waitTimer := 0, wrongTries := 255 }).1 = { waitTimer := 0, wrongTries := 0 } := by
  refine ⟨?_, ?_, ?_, ?_, ?_⟩ <;> decide

/-- C11, amended: for every prior value `w <= 254` of the counter, the first value that
`deny_access` writes to `WRONG_TRIES` is `w + 1`, and the lockdown is entered
(`lockdown_remaining = LOCKDOWN_WAIT` is written and 300 ticks are waited) exactly when
`w + 1 >= MAX_WRONG_TRIES`; below the threshold the store is left with the counter `w + 1` and
the timer untouched. -/
theorem C11_denial_increments_and_locks_at_threshold (e : Eeprom) (h : e.wrongTries < 255) :
    (counterWrites (deny_access e).2).head? = some (e.wrongTries + 1) ∧
    (lockdownEntered (deny_access e).2 = true ↔ MAX_WRONG_TRIES ≤ e.wrongTries + 1) ∧
    (MAX_WRONG_TRIES ≤ e.wrongTries + 1 →
      secondsWaited (deny_access e).2 = LOCKDOWN_WAIT ∧ LOCKDOWN_WAIT = 300) ∧
    (e.wrongTries + 1 < MAX_WRONG_TRIES →
      secondsWaited (deny_access e).2 = 0 ∧
      (deny_access e).1 = { waitTimer := e.waitTimer, wrongTries := e.wrongTries + 1 }) := by
  have hmod : (e.wrongTries + 1) % 256 = e.wrongTries + 1 := Nat.mod_eq_of_lt (by omega)
  refine ⟨?_, ?_, ?_, ?_⟩
  · rw [deny_access_trace, counterWrites_denyEffects, hmod]
  · by_cases hw : MAX_WRONG_TRIES ≤ (e.wrongTries + 1) % 256
    · rw [deny_access_lock e hw]
      rw [hmod] at hw
      simp [lockdownEntered, hw]
    · rw [deny_access_below e (by omega), lockdownEntered_denyEffects]
      rw [hmod] at hw
      simp [hw]
  · intro hw
    exact ⟨secondsWaited_deny_access_lock e (by rw [hmod]; exact hw), rfl⟩
  · intro hw
    have hb : (e.wrongTries + 1) % 256 < MAX_WRONG_TRIES := by rw [hmod]; exact hw
    refine ⟨secondsWaited_deny_access_below e hb, ?_⟩
    rw [deny_access_below e hb, hmod]

/-- Witness of C11 at the counter 2 (the third wrong try) and at the counter 0. -/
theorem C11_denial_increments_witness :
    (counterWrites (deny_access { waitTimer := 0, wrongTries := 2 }).2).head? = some (2 + 1) ∧
    secondsWaited (deny_access { waitTimer := 0, wrongTries := 2 }).2 = LOCKDOWN_WAIT ∧
    (deny_access { waitTimer := 0, wrongTries := 0 }).1 = { waitTimer := 0, wrongTries := 1 } :=
  ⟨(C11_denial_increments_and_locks_at_threshold { waitTimer := 0, wrongTries := 2 }
      (by decide)).1,
   ((C11_denial_increments_and_locks_at_threshold { waitTimer := 0, wrongTries := 2 }
      (by decide)).2.2.1 (by decide)).1,
   ((C11_denial_increments_and_locks_at_threshold { waitTimer := 0, wrongTries := 0 }
      (by decide)).2.2.2 (by decide)).2⟩

/-- C12: for every row and column below 4, the lookup `chars[row][col]` stays inside the table
and yields the symbol of the layout `1 2 3 A / 4 5 6 B / 7 8 9 C / * 0 # D`; the 16 symbols are
pairwise distinct; the key in row 2, column 3 is the only `C`, the key in row 3, column 2 the
only `#`, and the other 14 keys are neither. -/
theorem C12_keypad_layout :
    (∀ row col : Fin 4, ∃ r, chars[row.val]? = some r ∧ r[col.val]? = some (keyAt row col)) ∧
    (∀ row col : Fin 4, specLayout[4 * row.val + col.val]? = some (keyAt row col)) ∧
    ((List.finRange 4).flatMap fun row => (List.finRange 4).map fun col => keyAt row col) =
      specLayout ∧
    specLayout.Nodup ∧ specLayout.length = 16 ∧
    (∀ row col : Fin 4, keyAt row col = 'C' ↔ (row = 2 ∧ col = 3)) ∧
    (∀ row col : Fin 4, keyAt row col = '#' ↔ (row = 3 ∧ col = 2)) ∧
    ((List.finRange 4).flatMap fun row => (List.finRange 4).filter fun col =>
      decide (keyAt row col ≠ 'C' ∧ keyAt row col ≠ '#')).length = 14 := by
  refine ⟨?_, ?_, ?_, ?_, ?_, ?_, ?_, ?_⟩ <;> decide

/-! ### Lemmas on typing data symbols -/

theorem typeKeys_nil (s : State) : typeKeys s [] = (s, []) := rfl

theorem typeKeys_cons (s : State) (c : Char) (cs : List Char) :
    typeKeys s (c :: cs) =
      ((typeKeys (onKey s c).1 cs).1, (onKey s c).2 ++ (typeKeys (onKey s c).1 cs).2) :=
  rfl

theorem typeKeys_append (s : State) (a b : List Char) :
    typeKeys s (a ++ b) =
      ((typeKeys (typeKeys s a).1 b).1, (typeKeys s a).2 ++ (typeKeys (typeKeys s a).1 b).2) := by
  induction a generalizing s with
  | nil => simp [typeKeys_nil]
  | cons c cs ih =>
    rw [List.cons_append, typeKeys_cons, typeKeys_cons, ih]
    simp

theorem buffer_onKey_data (s : State) (c : Char) (hC : c ≠ 'C') (hS : c ≠ '#')
    (hlt : s.cursor < 255) : (onKey s c).1.buffer = s.buffer ++ [c] := by
  rw [onKey_data s c hC hS]
  have hmod : (s.cursor + 1) % 256 = s.cursor + 1 := Nat.mod_eq_of_lt (by omega)
  simp only [State.buffer, hmod, List.range_succ, List.map_append, List.map_cons, List.map_nil,
    Function.update_same]
  congr 1
  apply List.map_congr_left
  intro k hk
  have hk2 : k < s.cursor := List.mem_range.mp hk
  exact Function.update_noteq (by omega) _ _

theorem typeKeys_data (cs : List Char) (s : State)
    (hdata : ∀ c, c ∈ cs → c ≠ 'C' ∧ c ≠ '#') (hlen : s.cursor + cs.length ≤ 255) :
    (typeKeys s cs).1.buffer = s.buffer ++ cs ∧
    (typeKeys s cs).1.cursor = s.cursor + cs.length ∧
    (typeKeys s cs).1.eeprom = s.eeprom ∧
    (typeKeys s cs).2 = List.replicate cs.length (Effect.lcdPutc '*') := by
  induction cs generalizing s with
  | nil => simp [typeKeys_nil]
  | cons c cs ih =>
    have hc := hdata c (List.mem_cons_self c cs)
    have hlen2 : s.cursor + (cs.length + 1) ≤ 255 := by simpa using hlen
    have hcur : (onKey s c).1.cursor = s.cursor + 1 := by
      rw [onKey_data s c hc.1 hc.2]
      exact Nat.mod_eq_of_lt (by omega)
    have hee : (onKey s c).1.eeprom = s.eeprom := by
      rw [onKey_data s c hc.1 hc.2]
    have htr : (onKey s c).2 = [Effect.lcdPutc '*'] := by
      rw [onKey_data s c hc.1 hc.2]
    have hbuf := buffer_onKey_data s c hc.1 hc.2 (by omega)
    obtain ⟨h1, h2, h3, h4⟩ := ih (onKey s c).1
      (fun x hx => hdata x (List.mem_cons_of_mem c hx)) (by rw [hcur]; omega)
    rw [typeKeys_cons]
    refine ⟨?_, ?_, ?_, ?_⟩
    · rw [h1, hbuf]
      simp
    · rw [h2, hcur, List.length_cons]
      omega
    · rw [h3, hee]
    · rw [h4, htr, List.length_cons, List.replicate_succ]
      rfl

theorem buffer_of_cursor_zero (s : State) (h : s.cursor = 0) : s.buffer = [] := by
  simp [State.buffer, h]

theorem granted_append (a b : List Effect) : granted (a ++ b) = (granted a || granted b) := by
  simp [granted, List.mem_append]

theorem code_is_data : ∀ c, c ∈ code → c ≠ 'C' ∧ c ≠ '#' := by decide

/-! ## Claims C14 and C15 -/

/-- C14: in every state whose buffer has length `n < sizeof(code)`, a data symbol `c` (neither
`C` nor `#`) yields the buffer `old ++ [c]` of length `n + 1`: the first `n` cells are
unchanged, cell `n` holds `c`, the EEPROM is untouched and one `*` is echoed. Hence, from an
empty buffer, typing the symbols of the code and then `#` pulses the relay. -/
theorem C14_data_symbol_is_appended (s : State) (c : Char) (hn : s.cursor < sizeofCode)
    (hC : c ≠ 'C') (hS : c ≠ '#') :
    (onKey s c).1.buffer = s.buffer ++ [c] ∧
    (onKey s c).1.buffer.length = s.buffer.length + 1 ∧
    (∀ k, k < s.cursor → (onKey s c).1.keystrokes k = s.keystrokes k) ∧
    (onKey s c).1.keystrokes s.cursor = c ∧
    (onKey s c).1.eeprom = s.eeprom ∧
    (onKey s c).2 = [Effect.lcdPutc '*'] ∧
    (∀ s0 : State, s0.cursor = 0 →
      (typeKeys s0 code).1.buffer = code ∧
      granted (typeKeys s0 (code ++ ['#'])).2 = true) := by
  have hn4 : s.cursor < 4 := hn
  have hbuf := buffer_onKey_data s c hC hS (by omega)
  refine ⟨hbuf, ?_, ?_, ?_, ?_, ?_, ?_⟩
  · rw [hbuf]
    simp
  · intro k hk
    rw [onKey_data s c hC hS]
    exact Function.update_noteq (by omega) _ _
  · rw [onKey_data s c hC hS]
    exact Function.update_same _ _ _
  · rw [onKey_data s c hC hS]
  · rw [onKey_data s c hC hS]
  · intro s0 h0
    have hd := typeKeys_data code s0 code_is_data (by rw [h0]; decide)
    have hb : (typeKeys s0 code).1.buffer = code := by
      rw [hd.1, buffer_of_cursor_zero s0 h0]
      rfl
    refine ⟨hb, ?_⟩
    rw [typeKeys_append, typeKeys_cons, typeKeys_nil, granted_append, granted_append,
      granted_onKey_submit, (submitMismatch_eq_false_iff _).mpr hb]
    simp

/-- Witness of C14: the symbol `7` typed after `1 3 3`, and the whole code typed after boot. -/
theorem C14_data_symbol_witness :
    (onKey { eeprom := { waitTimer := 0, wrongTries := 1 }, cursor := 3, keystrokes := codeAt }
      '7').1.buffer = ['1', '3', '3'] ++ ['7'] ∧
    granted (typeKeys (boot { waitTimer := 0, wrongTries := 1 } ramZero).1
      (code ++ ['#'])).2 = true :=
  ⟨(C14_data_symbol_is_appended
      { eeprom := { waitTimer := 0, wrongTries := 1 }, cursor := 3, keystrokes := codeAt }
      '7' (by decide) (by decide) (by decide)).1,
   ((C14_data_symbol_is_appended
      { eeprom := { waitTimer := 0, wrongTries := 1 }, cursor := 3, keystrokes := codeAt }
      '7' (by decide) (by decide) (by decide)).2.2.2.2.2.2
      (boot { waitTimer := 0, wrongTries := 1 } ramZero).1 rfl).2⟩

/-- C15: the buffer is empty (`cursor = 0`) in the state `boot` leaves and in the state every
submit leaves, in whatever state the submit was made; so the buffer of the next attempt is just
the data symbols typed since (at most `sizeof(code)` of them), and that attempt is granted
exactly when these are the code. -/
theorem C15_buffer_is_empty_after_boot_and_submit (e : Eeprom) (ram : Nat → Char) (s : State)
    (cs : List Char) (hdata : ∀ c, c ∈ cs → c ≠ 'C' ∧ c ≠ '#')
    (hlen : cs.length ≤ sizeofCode) :
    (boot e ram).1.cursor = 0 ∧ (boot e ram).1.buffer = [] ∧
    (onKey s '#').1.cursor = 0 ∧ (onKey s '#').1.buffer = [] ∧
    (typeKeys (onKey s '#').1 cs).1.buffer = cs ∧
    (typeKeys (boot e ram).1 cs).1.buffer = cs ∧
    (submitMismatch (typeKeys (onKey s '#').1 cs).1 = false ↔ cs = code) := by
  have hc : (onKey s '#').1.cursor = 0 := by rw [onKey_submit]; rfl
  have hlen4 : cs.length ≤ 4 := hlen
  have hb : (typeKeys (onKey s '#').1 cs).1.buffer = cs := by
    rw [(typeKeys_data cs _ hdata (by rw [hc]; omega)).1, buffer_of_cursor_zero _ hc]
    rfl
  refine ⟨rfl, rfl, hc, buffer_of_cursor_zero _ hc, hb, ?_, ?_⟩
  · have hcb : (boot e ram).1.cursor = 0 := rfl
    rw [(typeKeys_data cs _ hdata (by rw [hcb]; omega)).1, buffer_of_cursor_zero _ hcb]
    rfl
  · rw [submitMismatch_eq_false_iff, hb]

/-- Witness of C15: a wrong attempt `0 0 0 0` is submitted, then `1 3 3 7` is typed. -/
theorem C15_buffer_is_empty_witness :
    (onKey (typeKeys (boot { waitTimer := 0, wrongTries := 0 } ramZero).1
      ['0', '0', '0', '0']).1 '#').1.cursor = 0 ∧
    (typeKeys (onKey (typeKeys (boot { waitTimer := 0, wrongTries := 0 } ramZero).1
      ['0', '0', '0', '0']).1 '#').1 ['1', '3', '3', '7']).1.buffer = ['1', '3', '3', '7'] :=
  ⟨(C15_buffer_is_empty_after_boot_and_submit { waitTimer := 0, wrongTries := 0 } ramZero
      (typeKeys (boot { waitTimer := 0, wrongTries := 0 } ramZero).1 ['0', '0', '0', '0']).1
      ['1', '3', '3', '7'] (by decide) (by decide)).2.2.1,
   (C15_buffer_is_empty_after_boot_and_submit { waitTimer := 0, wrongTries := 0 } ramZero
      (typeKeys (boot { waitTimer := 0, wrongTries := 0 } ramZero).1 ['0', '0', '0', '0']).1
      ['1', '3', '3', '7'] (by decide) (by decide)).2.2.2.2.1⟩

/-! ### Lemmas on the display -/

theorem tick_shows (i : Nat) :
    (tickEffects i).filterMap shownMinSec = [((i / 60) % 256, i % 60)] := by
  have h60 : i % 60 % 256 = i % 60 :=
    Nat.mod_eq_of_lt (lt_trans (Nat.mod_lt _ (by decide)) (by decide))
  simp [tickEffects, shownMinSec, h60]

theorem granted_eq_false_of_append (a b : List Effect) (h : granted (a ++ b) = false) :
    granted a = false ∧ granted b = false := by
  rw [granted_append, Bool.or_eq_false_iff] at h
  exact h

theorem masked_runs (ks1 : List Char) :
    ∀ (ks2 : List Char) (s1 s2 : State), s1.eeprom = s2.eeprom →
      sameControls ks1 ks2 = true →
      granted (typeKeys s1 ks1).2 = false → granted (typeKeys s2 ks2).2 = false →
      (typeKeys s1 ks1).2 = (typeKeys s2 ks2).2 ∧
        (typeKeys s1 ks1).1.eeprom = (typeKeys s2 ks2).1.eeprom := by
  induction ks1 with
  | nil =>
    intro ks2 s1 s2 hee hshape _ _
    cases ks2 with
    | nil => exact ⟨rfl, hee⟩
    | cons b bs => simp [sameControls] at hshape
  | cons a as ih =>
    intro ks2 s1 s2 hee hshape hg1 hg2
    cases ks2 with
    | nil => simp [sameControls] at hshape
    | cons b bs =>
      simp only [sameControls, sameKind, Bool.and_eq_true, decide_eq_true_eq] at hshape
      obtain ⟨⟨hC, hS⟩, hrest⟩ := hshape
      rw [typeKeys_cons] at hg1 hg2 ⊢
      rw [typeKeys_cons]
      obtain ⟨hga, hgas⟩ := granted_eq_false_of_append _ _ hg1
      obtain ⟨hgb, hgbs⟩ := granted_eq_false_of_append _ _ hg2
      have hstep : (onKey s1 a).2 = (onKey s2 b).2 ∧
          (onKey s1 a).1.eeprom = (onKey s2 b).1.eeprom := by
        by_cases haC : a = 'C'
        · have hbC := hC.mp haC
          subst haC
          subst hbC
          rw [onKey_clear, onKey_clear]
          exact ⟨rfl, hee⟩
        · by_cases haS : a = '#'
          · have hbS := hS.mp haS
            subst haS
            subst hbS
            rw [granted_onKey_submit] at hga hgb
            have hm1 : submitMismatch s1 = true := by simpa using hga
            have hm2 : submitMismatch s2 = true := by simpa using hgb
            rw [onKey_submit, onKey_submit, hm1, hm2, hee]
            exact ⟨rfl, rfl⟩
          · have hbC : b ≠ 'C' := fun h => haC (hC.mpr h)
            have hbS : b ≠ '#' := fun h => haS (hS.mpr h)
            rw [onKey_data s1 a haC haS, onKey_data s2 b hbC hbS]
            exact ⟨rfl, hee⟩
      obtain ⟨h1, h2⟩ := ih bs (onKey s1 a).1 (onKey s2 b).1 hstep.2 hrest hgas hgbs
      exact ⟨by rw [hstep.1, h1], h2⟩

/-! ## Claims C16 and C17 -/

/-- C16, counterexample: with the value 65535 of an erased EEPROM word the first tick shows
68 minutes and 15 seconds, that is 4095 seconds, while `65535 / 60 = 1092`. -/
theorem C16_minutes_of_65535_are_truncated :
    (tickEffects 65535).filterMap shownMinSec = [(68, 15)] ∧
    65535 / 60 = 1092 ∧ 60 * 68 + 15 ≠ 65535 ∧
    (lock_device { waitTimer := 65535, wrongTries := 255 }).2.take 4 =
      [Effect.lcdClear, Effect.lcdPuts Msg.deviceLocked, Effect.lcdSetCursorLine1 0,
       Effect.lcdPuts (Msg.wait 68 15)] := by
  refine ⟨by decide, by decide, by decide, ?_⟩
  rw [lock_device_of_pos _ (show 0 < 65535 by decide)]
  have hd : descending 65535 = 65535 :: descending 65534 := descending_succ 65534
  simp only [hd, List.flatMap_cons]
  rfl

/-- C16, amended: for every remaining value `0 < i <= 65535` the tick shows
`m = (i / 60) mod 256` minutes and `s = i mod 60 < 60` seconds; for `i < 15360`, so for every
value up to `LOCKDOWN_WAIT`, `m = i / 60` and `60 * m + s = i`, and for `i >= 15360` the time
shown is less than `i`. -/
theorem C16_countdown_display_arithmetic (i : Nat) (hpos : 0 < i) (hle : i ≤ 65535) :
    (tickEffects i).filterMap shownMinSec = [((i / 60) % 256, i % 60)] ∧
    i % 60 < 60 ∧
    (i < 15360 → (i / 60) % 256 = i / 60 ∧ 60 * ((i / 60) % 256) + i % 60 = i) ∧
    (15360 ≤ i → 60 * ((i / 60) % 256) + i % 60 < i) ∧
    LOCKDOWN_WAIT < 15360 := by
  refine ⟨tick_shows i, Nat.mod_lt _ (by decide), ?_, ?_, by decide⟩
  · intro h
    exact ⟨Nat.mod_eq_of_lt (by omega), shown_eq_of_lt i h⟩
  · intro h
    omega

/-- Witness of C16 at `i = 300`, the first tick of a lockdown: 5 minutes, 0 seconds. -/
theorem C16_countdown_display_witness :
    (tickEffects 300).filterMap shownMinSec = [((300 / 60) % 256, 300 % 60)] ∧
    (300 / 60) % 256 = 300 / 60 ∧ 60 * ((300 / 60) % 256) + 300 % 60 = 300 :=
  ⟨(C16_countdown_display_arithmetic 300 (by decide) (by decide)).1,
   (C16_countdown_display_arithmetic 300 (by decide) (by decide)).2.2.1 (by decide)⟩

/-- C17: a data symbol is echoed by the one call `avr_lcd_putc('*')`, whatever the symbol is;
and two runs from states with the same EEPROM, over key sequences of the same length with `C`
and `#` at the same positions, neither of which pulses the relay, make the same calls to the
display (and the same calls altogether). -/
theorem C17_masked_echo (s1 s2 : State) (ks1 ks2 : List Char) (hee : s1.eeprom = s2.eeprom)
    (hshape : sameControls ks1 ks2 = true)
    (hg1 : granted (typeKeys s1 ks1).2 = false) (hg2 : granted (typeKeys s2 ks2).2 = false) :
    (∀ (s : State) (c : Char), c ≠ 'C' → c ≠ '#' → (onKey s c).2 = [Effect.lcdPutc '*']) ∧
    lcdOutputs (typeKeys s1 ks1).2 = lcdOutputs (typeKeys s2 ks2).2 ∧
    (typeKeys s1 ks1).2 = (typeKeys s2 ks2).2 := by
  have h := masked_runs ks1 ks2 s1 s2 hee hshape hg1 hg2
  refine ⟨?_, by rw [h.1], h.1⟩
  intro s c hC hS
  rw [onKey_data s c hC hS]

/-- Witness of C17: the wrong codes `1 2 3 4` and `9 * 0 D`, each submitted after boot. -/
theorem C17_masked_echo_witness :
    lcdOutputs (typeKeys (boot { waitTimer := 0, wrongTries := 0 } ramZero).1
      ['1', '2', '3', '4', '#']).2 =
    lcdOutputs (typeKeys (boot { waitTimer := 0, wrongTries := 0 } ramZero).1
      ['9', '*', '0', 'D', '#']).2 :=
  (C17_masked_echo (boot { waitTimer := 0, wrongTries := 0 } ramZero).1
    (boot { waitTimer := 0, wrongTries := 0 } ramZero).1
    ['1', '2', '3', '4', '#'] ['9', '*', '0', 'D', '#'] rfl (by decide) (by decide)
    (by decide)).2.1

/-! ### Lemmas on the attempt counter -/

theorem lock_device_wrongTries_lt (e : Eeprom) (h : e.wrongTries < MAX_WRONG_TRIES) :
    (lock_device e).1.wrongTries < MAX_WRONG_TRIES := by
  rcases Nat.eq_zero_or_pos e.waitTimer with h0 | h0
  · rw [lock_device_of_zero e h0]
    exact h
  · rw [lock_device_of_pos e h0]
    show 0 < MAX_WRONG_TRIES
    decide

theorem deny_access_wrongTries_lt (e : Eeprom) :
    (deny_access e).1.wrongTries < MAX_WRONG_TRIES := by
  by_cases hw : MAX_WRONG_TRIES ≤ (e.wrongTries + 1) % 256
  · rw [deny_access_lock e hw]
    show 0 < MAX_WRONG_TRIES
    decide
  · rw [deny_access_below e (by omega)]
    show (e.wrongTries + 1) % 256 < MAX_WRONG_TRIES
    omega

theorem onKey_wrongTries_lt (s : State) (c : Char)
    (h : s.eeprom.wrongTries < MAX_WRONG_TRIES) :
    (onKey s c).1.eeprom.wrongTries < MAX_WRONG_TRIES := by
  unfold onKey
  split
  · exact h
  · split
    · show (if submitMismatch s then deny_access s.eeprom
        else grant_access s.eeprom).1.wrongTries < MAX_WRONG_TRIES
      split
      · exact deny_access_wrongTries_lt _
      · show 0 % 256 < MAX_WRONG_TRIES
        decide
    · exact h

theorem mainLoop_wrongTries_lt (ks : List (Option (Fin 4 × Fin 4))) (s : State)
    (h : s.eeprom.wrongTries < MAX_WRONG_TRIES) :
    (mainLoop s ks).1.eeprom.wrongTries < MAX_WRONG_TRIES := by
  induction ks generalizing s with
  | nil => exact h
  | cons k ks ih =>
    show (mainLoop (loopIter s k).1 ks).1.eeprom.wrongTries < MAX_WRONG_TRIES
    apply ih
    cases k with
    | none => exact h
    | some rc => exact onKey_wrongTries_lt s _ h

theorem polling_mainLoop (ks : List (Option (Fin 4 × Fin 4))) (s : State) (h : Polling s) :
    Polling (mainLoop s ks).1 := by
  induction ks generalizing s with
  | nil => exact h
  | cons k ks ih => exact ih _ (Polling.iter s k h)

theorem secondsWaited_append (a b : List Effect) :
    secondsWaited (a ++ b) = secondsWaited a + secondsWaited b := by
  simp [secondsWaited, List.count_append]

theorem deny_access_fst_below (t w : Nat) (h : (w + 1) % 256 < MAX_WRONG_TRIES) :
    (deny_access { waitTimer := t, wrongTries := w }).1 =
      { waitTimer := t, wrongTries := (w + 1) % 256 } := by
  rw [deny_access_below _ h]

theorem deny_access_fst_lock (t w : Nat) (h : MAX_WRONG_TRIES ≤ (w + 1) % 256) :
    (deny_access { waitTimer := t, wrongTries := w }).1 = { waitTimer := 0, wrongTries := 0 } := by
  rw [deny_access_lock _ h]

theorem three_denials_lock_once (e : Eeprom) (h : e.wrongTries < MAX_WRONG_TRIES) :
    secondsWaited (denials MAX_WRONG_TRIES e).2 = LOCKDOWN_WAIT := by
  have h3 : e.wrongTries < 3 := h
  rw [show MAX_WRONG_TRIES = 0 + 1 + 1 + 1 from rfl]
  simp only [denials_succ, denials_zero, secondsWaited_append]
  obtain ⟨t, w⟩ := e
  simp only at h3
  have hsw0 : secondsWaited ([] : List Effect) = 0 := rfl
  have b0 : (0 + 1) % 256 < MAX_WRONG_TRIES := by decide
  have b1 : (1 + 1) % 256 < MAX_WRONG_TRIES := by decide
  have b2 : MAX_WRONG_TRIES ≤ (2 + 1) % 256 := by decide
  interval_cases w
  · rw [deny_access_fst_below t 0 b0, deny_access_fst_below t _ b1,
      secondsWaited_deny_access_below _ b0, secondsWaited_deny_access_below _ b1,
      secondsWaited_deny_access_lock _ b2, hsw0]
    omega
  · rw [deny_access_fst_below t 1 b1, deny_access_fst_lock t _ b2,
      secondsWaited_deny_access_below _ b1, secondsWaited_deny_access_lock _ b2,
      secondsWaited_deny_access_below _ b0, hsw0]
    omega
  · rw [deny_access_fst_lock t 2 b2, deny_access_fst_below 0 0 b0,
      secondsWaited_deny_access_lock _ b2, secondsWaited_deny_access_below _ b0,
      secondsWaited_deny_access_below _ b1, hsw0]
    omega

/-! ## Claim C18 -/

/-- C18: from a boot with persisted `wrong_tries < MAX_WRONG_TRIES` (any `lockdown_remaining`,
any RAM) and with no power interruption, after any sequence of scan results the state in which
the main loop polls has `wrong_tries < MAX_WRONG_TRIES`; so the increment of the next denial
does not wrap, and any `MAX_WRONG_TRIES` denials in a row from there contain exactly one full
lockdown of `LOCKDOWN_WAIT` ticks. -/
theorem C18_wrong_tries_stay_below_the_maximum (e : Eeprom) (ram : Nat → Char)
    (ks : List (Option (Fin 4 × Fin 4))) (h : e.wrongTries < MAX_WRONG_TRIES) :
    Polling (mainLoop (boot e ram).1 ks).1 ∧
    (mainLoop (boot e ram).1 ks).1.eeprom.wrongTries < MAX_WRONG_TRIES ∧
    (mainLoop (boot e ram).1 ks).1.eeprom.wrongTries + 1 < 256 ∧
    (counterWrites (deny_access (mainLoop (boot e ram).1 ks).1.eeprom).2).head? =
      some ((mainLoop (boot e ram).1 ks).1.eeprom.wrongTries + 1) ∧
    secondsWaited (denials MAX_WRONG_TRIES (mainLoop (boot e ram).1 ks).1.eeprom).2 =
      LOCKDOWN_WAIT := by
  have hb : (boot e ram).1.eeprom.wrongTries < MAX_WRONG_TRIES :=
    lock_device_wrongTries_lt e h
  have hm := mainLoop_wrongTries_lt ks _ hb
  have hm3 : (mainLoop (boot e ram).1 ks).1.eeprom.wrongTries < 3 := hm
  refine ⟨polling_mainLoop ks _ (Polling.boot e ram), hm, by omega, ?_,
    three_denials_lock_once _ hm⟩
  rw [deny_access_trace, counterWrites_denyEffects, Nat.mod_eq_of_lt (by omega)]

/-- Witness of C18: boot with two wrong tries on record, then a submit with an empty buffer
(row 3, column 2), a pass without a key, and the key `1`. -/
theorem C18_wrong_tries_witness :
    (mainLoop (boot { waitTimer := 0, wrongTries := 2 } ramZero).1
      [some (3, 2), none, some (0, 0)]).1.eeprom.wrongTries < MAX_WRONG_TRIES :=
  (C18_wrong_tries_stay_below_the_maximum { waitTimer := 0, wrongTries := 2 } ramZero
    [some (3, 2), none, some (0, 0)] (by decide)).2.1

/-! ### Lemmas on the interrupted countdown -/

theorem countdownCut_zero_right (i : Nat) (e : Eeprom) : countdownCut i 0 e = (e, []) := by
  cases i <;> rfl

theorem countdownCut_succ (i k : Nat) (e : Eeprom) :
    countdownCut (i + 1) (k + 1) e =
      ((countdownCut i k (loopBody (i + 1) e).1).1,
       (loopBody (i + 1) e).2 ++ (countdownCut i k (loopBody (i + 1) e).1).2) :=
  rfl

theorem countdownCut_trace (i k : Nat) (e : Eeprom) :
    (countdownCut i k e).2 = ((descending i).take k).flatMap tickEffects := by
  induction i generalizing k e with
  | zero => simp [countdownCut, descending]
  | succ i ih =>
    cases k with
    | zero => simp [countdownCut_zero_right]
    | succ k =>
      rw [countdownCut_succ, descending_succ, List.take_succ_cons, List.flatMap_cons]
      show tickEffects (i + 1) ++ (countdownCut i k _).2 = _
      rw [ih]

theorem length_descending (n : Nat) : (descending n).length = n := by
  induction n with
  | zero => rfl
  | succ n ih => rw [descending_succ, List.length_cons, ih]

theorem secondsWaited_flatMap_ticks (l : List Nat) :
    secondsWaited (l.flatMap tickEffects) = l.length := by
  induction l with
  | nil => rfl
  | cons a l ih =>
    rw [List.flatMap_cons, secondsWaited_append, ih, List.length_cons]
    simp [secondsWaited, tickEffects, List.count_cons]
    omega

theorem countdownCut_waitTimer (i k : Nat) (e : Eeprom) (hi : 0 < i) (hk : 0 < k)
    (hle : i ≤ 65535) : (countdownCut i k e).1.waitTimer = i - min k i + 1 := by
  induction i generalizing k e with
  | zero => omega
  | succ i ih =>
    cases k with
    | zero => omega
    | succ k =>
      rw [countdownCut_succ]
      show (countdownCut i k (loopBody (i + 1) e).1).1.waitTimer = _
      have hw : (loopBody (i + 1) e).1.waitTimer = i + 1 :=
        loopBody_waitTimer (i + 1) e (by omega)
      rcases Nat.eq_zero_or_pos i with hi0 | hi0
      · subst hi0
        show (loopBody (0 + 1) e).1.waitTimer = _
        rw [hw]
        omega
      · rcases Nat.eq_zero_or_pos k with hk0 | hk0
        · subst hk0
          rw [countdownCut_zero_right, hw]
          omega
        · rw [ih k _ hi0 hk0 (by omega)]
          omega

theorem lock_device_cut_of_pos (k : Nat) (e : Eeprom) (h : 0 < e.waitTimer) :
    lock_device_cut k e =
      ((countdownCut e.waitTimer k e).1,
       [Effect.lcdClear, Effect.lcdPuts Msg.deviceLocked] ++
         ((descending e.waitTimer).take k).flatMap tickEffects) := by
  have hne : ¬ e.waitTimer = 0 := by omega
  simp [lock_device_cut, eeprom_read_word, hne, countdownCut_trace]

theorem lock_device_cut_of_zero (k : Nat) (e : Eeprom) (h : e.waitTimer = 0) :
    lock_device_cut k e = (e, []) := by
  simp [lock_device_cut, eeprom_read_word, h]

theorem secondsWaited_lock_device_cut (k : Nat) (e : Eeprom) :
    secondsWaited (lock_device_cut k e).2 = min k e.waitTimer := by
  rcases Nat.eq_zero_or_pos e.waitTimer with h | h
  · rw [lock_device_cut_of_zero k e h, h]
    simp [secondsWaited]
  · rw [lock_device_cut_of_pos k e h, secondsWaited_append, secondsWaited_flatMap_ticks,
      List.length_take, length_descending]
    simp [secondsWaited]

theorem lock_device_cut_waitTimer (k : Nat) (e : Eeprom) (hle : e.waitTimer ≤ 65535) :
    (lock_device_cut k e).1.waitTimer =
      if k = 0 ∨ e.waitTimer = 0 then e.waitTimer
      else e.waitTimer - min k e.waitTimer + 1 := by
  rcases Nat.eq_zero_or_pos e.waitTimer with h | h
  · rw [lock_device_cut_of_zero k e h, if_pos (Or.inr h)]
  · rw [lock_device_cut_of_pos k e h]
    rcases Nat.eq_zero_or_pos k with hk | hk
    · subst hk
      rw [if_pos (Or.inl rfl)]
      show (countdownCut e.waitTimer 0 e).1.waitTimer = _
      rw [countdownCut_zero_right]
    · rw [if_neg (by omega)]
      exact countdownCut_waitTimer _ k e h hk hle

theorem lock_device_cut_bound (k : Nat) (e : Eeprom) (hle : e.waitTimer ≤ 65535) :
    e.waitTimer ≤ secondsWaited (lock_device_cut k e).2 + (lock_device_cut k e).1.waitTimer ∧
    (lock_device_cut k e).1.waitTimer ≤ e.waitTimer := by
  rw [secondsWaited_lock_device_cut, lock_device_cut_waitTimer k e hle]
  split <;> omega

theorem secondsWaited_lock_device_all (e : Eeprom) :
    secondsWaited (lock_device e).2 = e.waitTimer := by
  rcases Nat.eq_zero_or_pos e.waitTimer with h | h
  · rw [lock_device_of_zero e h, h]
    rfl
  · exact secondsWaited_lock_device e h

theorem ticksOverPowerCycles_ge (ks : List Nat) (e : Eeprom) (hle : e.waitTimer ≤ 65535) :
    e.waitTimer ≤ ticksOverPowerCycles ks e := by
  induction ks generalizing e with
  | nil =>
    show e.waitTimer ≤ secondsWaited (lock_device e).2
    rw [secondsWaited_lock_device_all]
  | cons k ks ih =>
    show e.waitTimer ≤ secondsWaited (lock_device_cut k e).2 +
      ticksOverPowerCycles ks (lock_device_cut k e).1
    have hb := lock_device_cut_bound k e hle
    have hi := ih (lock_device_cut k e).1 (by omega)
    omega

theorem pairwise_descending (n : Nat) : (descending n).Pairwise (· ≥ ·) := by
  induction n with
  | zero => exact List.Pairwise.nil
  | succ n ih =>
    rw [descending_succ]
    refine List.Pairwise.cons ?_ ih
    intro a ha
    have := (mem_descending n a).mp ha
    omega

theorem timerWrites_lock_device (e : Eeprom) (h : 0 < e.waitTimer) (hle : e.waitTimer ≤ 65535) :
    timerWrites (lock_device e).2 = descending e.waitTimer ++ [0] := by
  rw [lock_device_of_pos _ h]
  have ht := timerWrites_ticks e.waitTimer
  unfold timerWrites at ht ⊢
  simp only [List.filterMap_append, ht]
  have hm : (descending e.waitTimer).map (· % 65536) = (descending e.waitTimer).map id := by
    apply List.map_congr_left
    intro k hk
    have hk2 := (mem_descending e.waitTimer k).mp hk
    exact Nat.mod_eq_of_lt (by omega)
  rw [hm, List.map_id]
  simp

/-! ## Claim C19 -/

/-- C19: a countdown started from the persisted value `0 < R <= 65535` and cut by a power loss
after `k <= R` completed ticks has run a beginning of the full countdown, has waited `k` ticks
and leaves `lockdown_remaining` at `R` when `k = 0` and at `R - k + 1` otherwise, a value
between `R - k` and `R`; the values written to `lockdown_remaining` by a full countdown are
`R, R-1, ..., 1, 0`, a non-increasing sequence; and over any series of boots whose countdowns
are cut, followed by a boot that is not, at least `R` ticks are waited. -/
theorem C19_countdown_resists_power_cycling (R w k : Nat) (ks : List Nat) (hpos : 0 < R)
    (hle : R ≤ 65535) (hk : k ≤ R) :
    (∃ rest, (lock_device { waitTimer := R, wrongTries := w }).2 =
      (lock_device_cut k { waitTimer := R, wrongTries := w }).2 ++ rest) ∧
    secondsWaited (lock_device_cut k { waitTimer := R, wrongTries := w }).2 = k ∧
    (lock_device_cut k { waitTimer := R, wrongTries := w }).1.waitTimer =
      (if k = 0 then R else R - k + 1) ∧
    R - k ≤ (lock_device_cut k { waitTimer := R, wrongTries := w }).1.waitTimer ∧
    (lock_device_cut k { waitTimer := R, wrongTries := w }).1.waitTimer ≤ R ∧
    timerWrites (lock_device { waitTimer := R, wrongTries := w }).2 = descending R ++ [0] ∧
    (timerWrites (lock_device { waitTimer := R, wrongTries := w }).2).Pairwise (· ≥ ·) ∧
    R ≤ ticksOverPowerCycles ks { waitTimer := R, wrongTries := w } := by
  have hp : 0 < ({ waitTimer := R, wrongTries := w } : Eeprom).waitTimer := hpos
  have hl : ({ waitTimer := R, wrongTries := w } : Eeprom).waitTimer ≤ 65535 := hle
  have hw := lock_device_cut_waitTimer k { waitTimer := R, wrongTries := w } hl
  have hw2 : (lock_device_cut k { waitTimer := R, wrongTries := w }).1.waitTimer =
      (if k = 0 then R else R - k + 1) := by
    rw [hw]
    show (if k = 0 ∨ R = 0 then R else R - min k R + 1) = _
    by_cases hk0 : k = 0
    · rw [if_pos (Or.inl hk0), if_pos hk0]
    · rw [if_neg (by omega), if_neg hk0, Nat.min_eq_left hk]
  have htw := timerWrites_lock_device { waitTimer := R, wrongTries := w } hp hl
  refine ⟨?_, ?_, hw2, ?_, ?_, htw, ?_, ticksOverPowerCycles_ge ks _ hl⟩
  · refine ⟨((descending R).drop k).flatMap tickEffects ++
      [Effect.eepromWriteWord 0, Effect.eepromWriteByte 0], ?_⟩
    have hsplit : (descending R).flatMap tickEffects =
        ((descending R).take k).flatMap tickEffects ++
          ((descending R).drop k).flatMap tickEffects := by
      rw [← List.flatMap_append, List.take_append_drop]
    rw [lock_device_of_pos _ hp, lock_device_cut_of_pos _ _ hp]
    show _ ++ (descending R).flatMap tickEffects ++ _ = _
    rw [hsplit]
    simp only [List.append_assoc]
  · rw [secondsWaited_lock_device_cut]
    exact Nat.min_eq_left hk
  · rw [hw2]
    split <;> omega
  · rw [hw2]
    split <;> omega
  · rw [htw]
    show (descending R ++ [0]).Pairwise (· ≥ ·)
    rw [List.pairwise_append]
    refine ⟨pairwise_descending R, List.pairwise_singleton _ _, ?_⟩
    intro a _ b hb
    rw [List.mem_singleton] at hb
    omega

/-- Witness of C19: a countdown from 3 cut after 2 ticks leaves 2 in the EEPROM; cut again after
2 ticks and then after 1 tick before a last full run, at least 3 ticks are waited. -/
theorem C19_countdown_resists_witness :
    (lock_device_cut 2 { waitTimer := 3, wrongTries := 3 }).1.waitTimer =
      (if 2 = 0 then 3 else 3 - 2 + 1) ∧
    3 ≤ ticksOverPowerCycles [2, 1] { waitTimer := 3, wrongTries := 3 } :=
  ⟨(C19_countdown_resists_power_cycling 3 3 2 [2, 1] (by decide) (by decide) (by decide)).2.2.1,
   (C19_countdown_resists_power_cycling 3 3 2 [2, 1] (by decide) (by decide)
     (by decide)).2.2.2.2.2.2.2⟩

/-! ## Claim C13 -/

theorem deny_access_cut_eq (t w : Nat) :
    deny_access_cut { waitTimer := t, wrongTries := w } =
      ({ waitTimer := t, wrongTries := (w + 1) % 256 }, denyEffects w) := by
  simp [deny_access_cut, eeprom_read_byte, eeprom_write_byte, denyEffects]

theorem lockdownEntered_append (a b : List Effect) :
    lockdownEntered (a ++ b) = (lockdownEntered a || lockdownEntered b) := by
  simp [lockdownEntered, List.mem_append]

theorem secondsWaited_denyEffects (w : Nat) : secondsWaited (denyEffects w) = 0 := by
  simp [secondsWaited, denyEffects]

theorem cutDenials_succ (n : Nat) (e : Eeprom) :
    cutDenials (n + 1) e =
      ((cutDenials n (lock_device (deny_access_cut e).1).1).1,
       (deny_access_cut e).2 ++ (lock_device (deny_access_cut e).1).2 ++
         (cutDenials n (lock_device (deny_access_cut e).1).1).2) :=
  rfl

theorem cutDenials_never_lock (n : Nat) :
    ∀ w : Nat,
      (cutDenials n { waitTimer := 0, wrongTries := w }).1 =
        { waitTimer := 0, wrongTries := if n = 0 then w else (w + n) % 256 } ∧
      secondsWaited (cutDenials n { waitTimer := 0, wrongTries := w }).2 = 0 ∧
      lockdownEntered (cutDenials n { waitTimer := 0, wrongTries := w }).2 = false := by
  induction n with
  | zero =>
    intro w
    exact ⟨rfl, rfl, rfl⟩
  | succ n ih =>
    intro w
    have hl := lock_device_of_zero { waitTimer := 0, wrongTries := (w + 1) % 256 } rfl
    obtain ⟨h1, h2, h3⟩ := ih ((w + 1) % 256)
    rw [cutDenials_succ, deny_access_cut_eq, hl]
    refine ⟨?_, ?_, ?_⟩
    · show (cutDenials n _).1 = _
      rw [h1, if_neg (Nat.succ_ne_zero n)]
      congr 1
      split <;> omega
    · show secondsWaited (denyEffects w ++ [] ++ (cutDenials n _).2) = 0
      rw [secondsWaited_append, secondsWaited_append, secondsWaited_denyEffects, h2]
      rfl
    · show lockdownEntered (denyEffects w ++ [] ++ (cutDenials n _).2) = false
      rw [lockdownEntered_append, lockdownEntered_append, lockdownEntered_denyEffects, h3]
      rfl

/-- C13, the code at the failing input: in the third denial `deny_access` writes
`wrong_tries = 3`, shows the denial and waits two seconds before it writes
`lockdown_remaining = 300`. A power loss during that wait leaves the store with 3 wrong tries
and no lockdown, so the `lock_device` of the next boot returns at once without a tick; and
however many denials are cut in this way, from whatever counter, no lockdown is ever written and
no tick is waited. -/
theorem C13_lockdown_is_written_after_the_denial_wait :
    (deny_access { waitTimer := 0, wrongTries := 2 }).2.take 7 =
      [Effect.eepromWriteByte 3, Effect.lcdClear, Effect.lcdPuts Msg.accessDenied,
       Effect.lcdSetCursorLine1 0, Effect.lcdPuts (Msg.tries 3 3), Effect.delayMs 2000,
       Effect.eepromWriteWord 300] ∧
    deny_access_cut { waitTimer := 0, wrongTries := 2 } =
      ({ waitTimer := 0, wrongTries := 3 },
       [Effect.eepromWriteByte 3, Effect.lcdClear, Effect.lcdPuts Msg.accessDenied,
        Effect.lcdSetCursorLine1 0, Effect.lcdPuts (Msg.tries 3 3), Effect.delayMs 2000]) ∧
    (∀ e : Eeprom, ∃ rest, (deny_access e).2 = (deny_access_cut e).2 ++ rest) ∧
    lock_device { waitTimer := 0, wrongTries := 3 } = ({ waitTimer := 0, wrongTries := 3 }, []) ∧
    (boot { waitTimer := 0, wrongTries := 3 } ramZero).1.eeprom =
      { waitTimer := 0, wrongTries := 3 } ∧
    secondsWaited (boot { waitTimer := 0, wrongTries := 3 } ramZero).2 = 0 ∧
    (∀ n w : Nat,
      secondsWaited (cutDenials n { waitTimer := 0, wrongTries := w }).2 = 0 ∧
      lockdownEntered (cutDenials n { waitTimer := 0, wrongTries := w }).2 = false) ∧
    (cutDenials 10 { waitTimer := 0, wrongTries := 0 }).1 =
      { waitTimer := 0, wrongTries := 10 } := by
  refine ⟨?_, by decide, ?_, by decide, by decide, by decide, ?_, ?_⟩
  · rw [deny_access_lock _ (by decide)]
    rfl
  · intro e
    obtain ⟨t, w⟩ := e
    rw [deny_access_trace, deny_access_cut_eq]
    exact ⟨_, rfl⟩
  · intro n w
    exact (cutDenials_never_lock n w).2
  · exact (cutDenials_never_lock 10 0).1

end CodeLock
